import Mathlib

/-!
# DOM change capture (`implementation/dom_screenshot.js`)

A shallow embedding of the mutation observer installed by `setupMutationObserver`, of
`getMutations` and of the capture loop `captureWithLogging`, followed by the properties
of the classifier and of the loop.

Conventions of the embedding.

* JavaScript strings are Lean strings (sequences of code points); `includes`,
  `slice(0, n)`, `split(' ')[0]` and `toLowerCase` are defined on the list of characters.
  `slice(0, n)` counts UTF-16 units as JavaScript does, a character outside the Basic
  Multilingual Plane counting for two; `toLowerCase` agrees with JavaScript on ASCII
  letters.
* `undefined` and `null` are `none`.
* Times are integers (milliseconds as returned by `Date.now()`).
* The browser is a parameter: a `Driver` gives the clock, says which mutations reach the
  observer during each `await` and whether a screenshot succeeds.  The page-side state
  (`window.__mutations`, `window.__mutationCount`, `window.__significantChange`) is part of
  the model and is updated by the observer callback exactly as in the source.
* The `while` loop is run with a bound on the number of executions of its body.
-/

namespace DomScreenshot

/-! ## Constants -/

/-- Source constant `MAX_SCREENSHOTS`. -/
def MAX_SCREENSHOTS : Nat := 10

/-- Source constant `TIMEOUT_MS`. -/
def TIMEOUT_MS : Int := 2000

/-- Source constant `DEBOUNCE_MS`. -/
def DEBOUNCE_MS : Int := 100

/-- Source constant `SIGNIFICANT_ATTRS`: attributes that indicate meaningful UI changes. -/
def SIGNIFICANT_ATTRS : List String :=
  ["aria-expanded", "aria-hidden", "aria-selected", "aria-checked",
   "hidden", "disabled", "checked", "selected", "open",
   "display", "visibility", "src", "href", "value"]

/-- Source constant `TRIVIAL_PATTERNS`: trivial style changes that are skipped. -/
def TRIVIAL_PATTERNS : List String :=
  ["caret-color", "cursor", "outline"]

/-! ## String operations of the source -/

/-- The list `p` occurs in `s` as a block of consecutive characters. -/
def includesChars (p : List Char) : List Char → Bool
  | [] => p.isEmpty
  | c :: cs => p.isPrefixOf (c :: cs) || includesChars p cs

/-- JavaScript `s.includes(p)`. -/
def includes (s p : String) : Bool :=
  includesChars p.data s.data

/-- The longest prefix of a list of characters that fits in `n` UTF-16 units: a character
below `0x10000` takes one unit and any other takes two. -/
def takeUnits : Nat → List Char → List Char
  | 0, _ => []
  | _, [] => []
  | 1, c :: _ => if c.toNat < 0x10000 then [c] else []
  | n + 2, c :: cs =>
    if c.toNat < 0x10000 then c :: takeUnits (n + 1) cs else c :: takeUnits n cs

/-- JavaScript `s.slice(0, n)` for a non-negative `n`: the first `n` UTF-16 units of `s`.
When the cut falls inside a character of two units, JavaScript keeps its first unit, which
is not a character; here that unit is left out.  No test of the source tells the two
apart: the tokens searched with `includes` are ASCII, and the result is empty only when
`s` is (for `n ≥ 2`). -/
def slice0 (s : String) (n : Nat) : String :=
  String.mk (takeUnits n s.data)

/-- JavaScript `s.split(' ')[0]`: the characters before the first space. -/
def firstWord (s : String) : String :=
  String.mk (s.data.takeWhile (fun c => c != ' '))

/-- JavaScript `s.toLowerCase()` (on ASCII letters). -/
def toLowerCase (s : String) : String :=
  String.mk (s.data.map Char.toLower)

/-- JavaScript truthiness of a string that may be `undefined`. -/
def truthy : Option String → Bool
  | none => false
  | some s => s != ""

/-! ## The DOM as seen by the observer -/

/-- A DOM node, with the properties the observer reads.  `attributes = none` stands for a
node without a `getAttribute` method (a text or comment node). -/
structure Node where
  nodeType : Nat
  tagName : Option String
  id : Option String
  className : Option String
  textContent : Option String
  attributes : Option (List (String × String))
deriving DecidableEq, Repr

/-- A DOM `MutationRecord`. -/
structure MutationRecord where
  type : String
  target : Node
  addedNodes : List Node
  removedNodes : List Node
  attributeName : Option String
deriving DecidableEq, Repr

/-- The record `detail` the observer pushes on `window.__mutations`; `attr` is the source
field `attribute`. -/
structure Detail where
  type : String
  target : String
  timestamp : Int
  significant : Bool
  added : Option (List String)
  removed : Option (List String)
  attr : Option String
  newValue : Option String
  text : Option String
deriving DecidableEq, Repr

/-- The expression `target.getAttribute?.(name)`; a `null` name is converted to the
string `null` by the DOM. -/
def getAttribute (target : Node) (name : Option String) : Option String :=
  match target.attributes with
  | none => none
  | some attrs => (attrs.find? (fun kv => kv.1 == name.getD "null")).map Prod.snd

/-- The selector computed at the top of the observer callback. -/
def selector (target : Node) : String :=
  if truthy target.id then "#" ++ target.id.getD ""
  else if truthy target.className then "." ++ firstWord (target.className.getD "")
  else
    match target.tagName with
    | none => "unknown"
    | some t => if toLowerCase t != "" then toLowerCase t else "unknown"

/-- The expression `n.tagName?.toLowerCase() || 'text'`. -/
def tagOrText (n : Node) : String :=
  match n.tagName with
  | none => "text"
  | some t => if toLowerCase t != "" then toLowerCase t else "text"

/-- The element tags of a node list, as reported: elements only, lower case, at most 3. -/
def elementTags (nodes : List Node) : List String :=
  ((nodes.filter (fun n => n.nodeType == 1)).map tagOrText).take 3

/-- The `childList` branch of the observer callback. -/
def childListBranch (m : MutationRecord) (detail : Detail) : Detail :=
  let detail :=
    if m.addedNodes.length > 0 then
      let added := elementTags m.addedNodes
      if added.length != 0 then { detail with added := some added, significant := true }
      else detail
    else detail
  if m.removedNodes.length > 0 then
    let removed := elementTags m.removedNodes
    if removed.length != 0 then { detail with removed := some removed, significant := true }
    else detail
  else detail

/-- The `attributes` branch of the observer callback. -/
def attributesBranch (m : MutationRecord) (detail : Detail) : Detail :=
  let detail := { detail with
    attr := m.attributeName
    newValue := (getAttribute m.target m.attributeName).map (fun v => slice0 v 50) }
  let detail :=
    if m.attributeName.any (fun a => SIGNIFICANT_ATTRS.contains a) then
      { detail with significant := true }
    else detail
  if m.attributeName = some "style" then
    let val := if truthy detail.newValue then detail.newValue.getD "" else ""
    if TRIVIAL_PATTERNS.any (fun p => includes val p) then
      { detail with significant := false }
    else if includes val "display" || includes val "visibility" then
      { detail with significant := true }
    else detail
  else detail

/-- The `characterData` branch of the observer callback. -/
def characterDataBranch (m : MutationRecord) (detail : Detail) : Detail :=
  { detail with
    text := m.target.textContent.map (fun t => slice0 t 50)
    significant := true }

/-- The initial value of `detail` in the observer callback. -/
def initialDetail (now : Int) (m : MutationRecord) : Detail :=
  { type := m.type, target := selector m.target, timestamp := now, significant := false,
    added := none, removed := none, attr := none, newValue := none, text := none }

/-- The record built by the observer callback for one mutation `m`; `now` is the value of
`Date.now()` in the page when the callback handles `m`. -/
def observerDetail (now : Int) (m : MutationRecord) : Detail :=
  let detail := initialDetail now m
  if m.type = "childList" then childListBranch m detail
  else if m.type = "attributes" then attributesBranch m detail
  else if m.type = "characterData" then characterDataBranch m detail
  else detail

/-- The test `detail.added || detail.removed || detail.text` that raises the flag. -/
def raisesFlag (detail : Detail) : Bool :=
  detail.added.isSome || detail.removed.isSome || truthy detail.text

/-! ## The page-side state and the observer -/

/-- The globals the observer keeps on `window`: `__mutations`, `__mutationCount` and
`__significantChange`. -/
structure Window where
  mutations : List Detail
  mutationCount : Nat
  significantChange : Bool
deriving DecidableEq, Repr

/-- One mutation reaching the observer, with the reading of `Date.now()` taken for it. -/
structure Arrival where
  now : Int
  record : MutationRecord
deriving DecidableEq, Repr

/-- The globals as initialised by `setupMutationObserver`. -/
def setupMutationObserver : Window :=
  { mutations := [], mutationCount := 0, significantChange := false }

/-- The body of `mutations.forEach` in the observer callback, for one mutation. -/
def observeOne (w : Window) (a : Arrival) : Window :=
  let detail := observerDetail a.now a.record
  { mutations := w.mutations ++ [detail]
    mutationCount := w.mutationCount + 1
    significantChange := if raisesFlag detail then true else w.significantChange }

/-- The observer callback run on the mutations that arrive, in order. -/
def observe (w : Window) (arrivals : List Arrival) : Window :=
  arrivals.foldl observeOne w

/-- The function `getMutations` evaluates in the page: return the buffer and empty it. -/
def takeMutations (w : Window) : List Detail × Window :=
  (w.mutations, { w with mutations := [] })

/-- The function the loop evaluates in the page: read the flag and clear it. -/
def readAndClearFlag (w : Window) : Bool × Window :=
  (w.significantChange, { w with significantChange := false })

/-! ## The browser -/

/-- The browser as the loop sees it.  `now` is `Date.now()`.  Each asynchronous call moves
the browser to a new state and says which mutations reached the observer while the call
was pending; for `evaluate` these are the mutations that arrive before the evaluated
function runs in the page (a later arrival is handed out by the next call).
`screenshot` may fail, which makes the `await` throw. -/
structure Driver (ε : Type) where
  now : ε → Int
  waitForTimeout : Int → ε → ε × List Arrival
  evaluate : ε → ε × List Arrival
  screenshot : String → ε → Except String (ε × List Arrival)

/-! ## The capture loop -/

/-- An element of `results.timeline`. -/
structure TimelineEntry where
  file : String
  time_ms : Int
  type : String
  significantCount : Option Nat
  trivialCount : Option Nat
  mutations : List Detail
deriving DecidableEq, Repr

/-- The object `results` of `captureWithLogging`. -/
structure Results where
  screenshots : List String
  totalMutations : Nat
  significantMutations : Nat
  timeline : List TimelineEntry
deriving DecidableEq, Repr

/-- The file name of snapshot number `count`. -/
def shotFile (count : Nat) : String :=
  "shot_" ++ toString count ++ ".png"

/-- The timeline entry of the initial screenshot. -/
def initialEntry : TimelineEntry :=
  { file := "shot_0.png", time_ms := 0, type := "initial",
    significantCount := none, trivialCount := none, mutations := [] }

/-- The variables of `captureWithLogging` that change in the loop, with the state of the
browser and of the page.  `drains` is a history variable: the batches returned by
`getMutations` so far, oldest first; nothing is computed from it. -/
structure LoopState (ε : Type) where
  env : ε
  window : Window
  results : Results
  count : Nat
  drains : List (List Detail)

/-- How a run ends: the function returns, a screenshot call throws, or the bound on the
number of loop iterations is used up with the loop still running. -/
inductive Outcome (α : Type) where
  | returned (r : α)
  | threw (err : String)
  | outOfFuel
deriving DecidableEq, Repr

/-- The `while` condition. -/
def loopGuard {ε : Type} (D : Driver ε) (maxShots : Nat) (timeoutMs startTime : Int)
    (s : LoopState ε) : Bool :=
  decide (D.now s.env - startTime < timeoutMs) && decide (s.count < maxShots)

/-- The start of the loop body: the debounce wait, then the evaluation in the page that
reads and clears the flag.  The result is `hasSignificant` and the state afterwards. -/
def checkFlag {ε : Type} (D : Driver ε) (debounceMs : Int) (s : LoopState ε) :
    Bool × LoopState ε :=
  let waited := D.waitForTimeout debounceMs s.env
  let evaluated := D.evaluate waited.1
  let flag := readAndClearFlag (observe (observe s.window waited.2) evaluated.2)
  (flag.1, { s with env := evaluated.1, window := flag.2 })

/-- The call `getMutations(page)`: the batch it returns and the state afterwards. -/
def getMutations {ε : Type} (D : Driver ε) (s : LoopState ε) : List Detail × LoopState ε :=
  let evaluated := D.evaluate s.env
  let taken := takeMutations (observe s.window evaluated.2)
  (taken.1, { s with env := evaluated.1, window := taken.2, drains := s.drains ++ [taken.1] })

/-- The expression `mutations.filter(m => m.significant)`. -/
def significantOf (mutations : List Detail) : List Detail :=
  mutations.filter (fun m => m.significant)

/-- The object `entry` built for the batch `mutations` drained at time `elapsed` when the
snapshot count is `count`. -/
def changeEntry (count : Nat) (elapsed : Int) (mutations : List Detail) : TimelineEntry :=
  let significant := significantOf mutations
  let trivial := mutations.length - significant.length
  { file := shotFile count, time_ms := elapsed, type := "significant_change",
    significantCount := some significant.length, trivialCount := some trivial,
    mutations := significant }

/-- The updates of `results` after a snapshot: the two pushes and the two counters. -/
def record (results : Results) (path : String) (entry : TimelineEntry)
    (mutations : List Detail) : Results :=
  { screenshots := results.screenshots ++ [path]
    timeline := results.timeline ++ [entry]
    totalMutations := results.totalMutations + mutations.length
    significantMutations := results.significantMutations + (significantOf mutations).length }

/-- The `if (hasSignificant)` block of the loop body, entered in state `s` (the state after
the flag was read and cleared). -/
def captureBlock {ε : Type} (D : Driver ε) (outputDir : String) (startTime : Int)
    (s : LoopState ε) : Except String (LoopState ε) :=
  let elapsed := D.now s.env - startTime
  let drained := getMutations D s
  let path := outputDir ++ "/" ++ shotFile s.count
  match D.screenshot path drained.2.env with
  | .error err => .error err
  | .ok shot =>
    .ok { drained.2 with
          env := shot.1
          window := observe drained.2.window shot.2
          results := record s.results path (changeEntry s.count elapsed drained.1) drained.1
          count := s.count + 1 }

/-- One execution of the loop body. -/
def loopBody {ε : Type} (D : Driver ε) (debounceMs : Int) (outputDir : String)
    (startTime : Int) (s : LoopState ε) : Except String (LoopState ε) :=
  let checked := checkFlag D debounceMs s
  if checked.1 then captureBlock D outputDir startTime checked.2
  else .ok checked.2

/-- The `while` loop, with at most `fuel` executions of its body. -/
def whileLoop {ε : Type} (D : Driver ε) (maxShots : Nat) (timeoutMs debounceMs : Int)
    (outputDir : String) (startTime : Int) : Nat → LoopState ε → Outcome (LoopState ε)
  | 0, s =>
    if loopGuard D maxShots timeoutMs startTime s then .outOfFuel else .returned s
  | fuel + 1, s =>
    if loopGuard D maxShots timeoutMs startTime s then
      match loopBody D debounceMs outputDir startTime s with
      | .error err => .threw err
      | .ok s1 => whileLoop D maxShots timeoutMs debounceMs outputDir startTime fuel s1
    else .returned s

/-- The state in which the loop starts: `results` holds the initial screenshot and its
entry, and `count` is 1. -/
def startState {ε : Type} (e : ε) (w : Window) (initialPath : String) : LoopState ε :=
  { env := e, window := w
    results :=
      { screenshots := [initialPath], totalMutations := 0, significantMutations := 0,
        timeline := [initialEntry] }
    count := 1, drains := [] }

/-- The function `captureWithLogging` up to the end of the loop, with the three constants
as parameters; `e` and `w` are the browser and the page globals when it is called. -/
def captureRun {ε : Type} (D : Driver ε) (maxShots : Nat) (timeoutMs debounceMs : Int)
    (outputDir : String) (fuel : Nat) (e : ε) (w : Window) : Outcome (LoopState ε) :=
  let initialPath := outputDir ++ "/" ++ "shot_0.png"
  match D.screenshot initialPath e with
  | .error err => .threw err
  | .ok shot =>
    whileLoop D maxShots timeoutMs debounceMs outputDir (D.now shot.1) fuel
      (startState shot.1 (observe w shot.2) initialPath)

/-- The value a run returns: the field `results` of the final state. -/
def Outcome.results {ε : Type} : Outcome (LoopState ε) → Outcome Results
  | .returned s => .returned s.results
  | .threw err => .threw err
  | .outOfFuel => .outOfFuel

/-- The function `captureWithLogging` with snapshot limit `maxShots`, duration bound
`timeoutMs` and debounce interval `debounceMs`. -/
def captureWithLoggingWith {ε : Type} (D : Driver ε) (maxShots : Nat)
    (timeoutMs debounceMs : Int) (outputDir : String) (fuel : Nat) (e : ε) (w : Window) :
    Outcome Results :=
  (captureRun D maxShots timeoutMs debounceMs outputDir fuel e w).results

/-- The function `captureWithLogging` of the source. -/
def captureWithLogging {ε : Type} (D : Driver ε) (outputDir : String) (fuel : Nat) (e : ε)
    (w : Window) : Outcome Results :=
  captureWithLoggingWith D MAX_SCREENSHOTS TIMEOUT_MS DEBOUNCE_MS outputDir fuel e w

/-! ## Assumptions on the browser -/

/-- The clock of the browser never goes backwards during a call, and a wait of
`debounceMs` advances it by at least `debounceMs`. -/
structure Driver.Advances {ε : Type} (D : Driver ε) (debounceMs : Int) : Prop where
  wait : ∀ e, D.now e + debounceMs ≤ D.now (D.waitForTimeout debounceMs e).1
  evaluate : ∀ e, D.now e ≤ D.now (D.evaluate e).1
  screenshot : ∀ path e shot, D.screenshot path e = .ok shot → D.now e ≤ D.now shot.1

/-- No screenshot call of the browser fails. -/
def Driver.NeverFails {ε : Type} (D : Driver ε) : Prop :=
  ∀ path e, ∃ shot, D.screenshot path e = .ok shot

/-- The part of the state of the loop that the timeline invariants speak about: the
timeline has `count` entries, starts with the initial entry, and its files are
`shot_0.png`, `shot_1.png`, ... in this order. -/
structure TimelineOk {ε : Type} (s : LoopState ε) : Prop where
  length_eq : s.results.timeline.length = s.count
  head : s.results.timeline.head? = some initialEntry
  files : s.results.timeline.map (fun entry => entry.file) = (List.range s.count).map shotFile

/-! ## The style rules of the specification -/

/-- The style rules in the words of the specification, applied to a style value `v`: a
trivial token makes the change not significant; otherwise `display` or `visibility` makes
it significant; otherwise it is not significant. -/
def specStyleVerdict (v : String) : Bool :=
  if includes v "caret-color" || includes v "cursor" || includes v "outline" then false
  else includes v "display" || includes v "visibility"

/-! ## Scripted browsers, for concrete runs -/

/-- The state of a scripted browser: a clock and the batches of mutations still to come,
one batch per asynchronous call. -/
structure Script where
  clock : Int
  feed : List (List Arrival)
deriving DecidableEq, Repr

/-- A browser that follows a script: every call hands out the next batch of the feed,
`waitForTimeout ms` advances the clock by `ms`, the other calls take no time and every
screenshot succeeds. -/
def scriptDriver : Driver Script :=
  { now := fun s => s.clock
    waitForTimeout := fun ms s =>
      ({ clock := s.clock + ms, feed := s.feed.tail }, s.feed.headD [])
    evaluate := fun s => ({ s with feed := s.feed.tail }, s.feed.headD [])
    screenshot := fun _ s => .ok ({ s with feed := s.feed.tail }, s.feed.headD []) }

/-- An element node with the given tag. -/
def elementNode (tag : String) : Node :=
  { nodeType := 1, tagName := some tag, id := some "", className := some "",
    textContent := some "", attributes := some [] }

/-- A text node with the given content. -/
def textNode (content : String) : Node :=
  { nodeType := 3, tagName := none, id := none, className := none,
    textContent := some content, attributes := none }

/-- A `childList` mutation of `body` with the given added and removed nodes. -/
def childListMutation (added removed : List Node) : MutationRecord :=
  { type := "childList", target := elementNode "BODY", addedNodes := added,
    removedNodes := removed, attributeName := none }

/-- An `attributes` mutation: attribute `name` of a `div` now has value `value`. -/
def attributeMutation (name value : String) : MutationRecord :=
  { type := "attributes"
    target := { elementNode "DIV" with attributes := some [(name, value)] }
    addedNodes := [], removedNodes := [], attributeName := some name }

/-- A `characterData` mutation of a text node whose content is now `content`. -/
def characterDataMutation (content : String) : MutationRecord :=
  { type := "characterData", target := textNode content, addedNodes := [],
    removedNodes := [], attributeName := none }

/-- An element insertion seen by the observer at time 5: a `div` is added to `body`. -/
def insertion : Arrival :=
  { now := 5, record := childListMutation [elementNode "DIV"] [] }

/-- A trivial mutation seen by the observer at time 15: the style of a `div` is set to
`cursor: pointer`. -/
def cursorChange : Arrival :=
  { now := 15, record := attributeMutation "style" "cursor: pointer" }

/-- A text change seen by the observer at time 25. -/
def textChange : Arrival :=
  { now := 25, record := characterDataMutation "hello" }

/-- A feed in which a second insertion reaches the observer between the read of the flag
and the drain of the first tick.  The batches are handed out, in this order, to the initial
screenshot (none), the first wait (an insertion), the first read of the flag (none) and
the first `getMutations` (an insertion); nothing arrives afterwards. -/
def raceFeed : List (List Arrival) :=
  [[], [insertion], [], [insertion]]

/-- A feed in which the only mutation is a trivial one, arriving during the first wait
(the first batch goes to the initial screenshot). -/
def trivialFeed : List (List Arrival) :=
  [[], [cursorChange]]

/-- The feed of the end-to-end scenario: `first` arrives during the wait of tick 1,
`second` during the wait of tick 2 and `third` during the wait of tick 3, and nothing
else arrives.  The batches go, in this order, to the initial screenshot, to the wait, the
read of the flag, the drain and the screenshot of tick 1, to the wait and the read of the
flag of tick 2, and to the wait of tick 3. -/
def scenarioFeed (first second third : Arrival) : List (List Arrival) :=
  [[], [first], [], [], [], [second], [], [third]]

/-- The clock of the browser never goes backwards during a call of the loop: a wait of
`debounceMs`, an evaluation in the page or a screenshot. -/
structure Driver.Monotone {ε : Type} (D : Driver ε) (debounceMs : Int) : Prop where
  wait : ∀ e, D.now e ≤ D.now (D.waitForTimeout debounceMs e).1
  evaluate : ∀ e, D.now e ≤ D.now (D.evaluate e).1
  screenshot : ∀ path e shot, D.screenshot path e = .ok shot → D.now e ≤ D.now shot.1

/-- The debounce wait and the read of the flag that follows it take at most `bound`
milliseconds together. -/
def Driver.TickWithin {ε : Type} (D : Driver ε) (debounceMs bound : Int) : Prop :=
  ∀ e, D.now (D.evaluate (D.waitForTimeout debounceMs e).1).1 ≤ D.now e + bound

/-- A feed whose only mutation is an insertion that arrives during the wait of tick 20:
the initial screenshot takes one batch and each of the 19 idle ticks before takes two. -/
def lateFeed : List (List Arrival) :=
  List.replicate 39 [] ++ [[insertion]]

/-- A text change to the empty string, seen by the observer at time 35. -/
def emptyTextChange : Arrival :=
  { now := 35, record := characterDataMutation "" }

/-- An attribute change with no new value: the attribute `hidden` of a `div` was removed,
so `getAttribute` returns `null`. -/
def hiddenRemoved : Arrival :=
  { now := 45
    record :=
      { type := "attributes", target := elementNode "DIV", addedNodes := [],
        removedNodes := [], attributeName := some "hidden" } }

/-- A text change whose target has no text content. -/
def textAbsent : Arrival :=
  { now := 55
    record :=
      { type := "characterData", target := { textNode "" with textContent := none },
        addedNodes := [], removedNodes := [], attributeName := none } }

/-- The state of a scripted browser whose screenshots fail once `shotsLeft` of them have
been taken. -/
structure FlakyScript where
  script : Script
  shotsLeft : Nat
deriving DecidableEq, Repr

/-- A scripted browser whose screenshot call fails with `CaptureError` once `shotsLeft`
screenshots have been taken; otherwise it behaves as `scriptDriver`. -/
def flakyDriver : Driver FlakyScript :=
  { now := fun s => s.script.clock
    waitForTimeout := fun ms s =>
      ({ s with script := (scriptDriver.waitForTimeout ms s.script).1 },
        (scriptDriver.waitForTimeout ms s.script).2)
    evaluate := fun s =>
      ({ s with script := (scriptDriver.evaluate s.script).1 },
        (scriptDriver.evaluate s.script).2)
    screenshot := fun _ s =>
      match s.shotsLeft with
      | 0 => .error "CaptureError"
      | left + 1 =>
        .ok ({ script := { s.script with feed := s.script.feed.tail }, shotsLeft := left },
          s.script.feed.headD []) }

/-- The state of a browser whose clock is adjusted while the loop runs: `steps` are the
adjustments still to come, one per `evaluate` call. -/
structure SteppedClock where
  clock : Int
  steps : List Int
deriving DecidableEq, Repr

/-- A browser in which nothing happens in the page, every wait of `ms` advances the clock
by exactly `ms`, and the clock is adjusted by the next step (0 when none is left) during
each `evaluate` call. -/
def steppedDriver : Driver SteppedClock :=
  { now := fun s => s.clock
    waitForTimeout := fun ms s => ({ s with clock := s.clock + ms }, [])
    evaluate := fun s => ({ clock := s.clock + s.steps.headD 0, steps := s.steps.tail }, [])
    screenshot := fun _ s => .ok (s, []) }

/-! ## The function `run` -/

/-- The input action `run` performs, chosen from the command line.  The text of the
argument is kept as given: `run` computes the coordinates of a click with
`split(',').map(Number)` and the amount of a scroll with `parseInt(actionArg) || 500`. -/
inductive Action where
  | click (arg : String)
  | type (text : String)
  | scroll (arg : Option String)
  | press (key : String)
deriving DecidableEq, Repr

/-- The `if` chain of `run` that chooses the action from `process.argv[3]` and
`process.argv[4]`. -/
def selectAction (action actionArg : Option String) : Option Action :=
  if action = some "click" ∧ truthy actionArg = true then
    some (Action.click (actionArg.getD ""))
  else if action = some "type" ∧ truthy actionArg = true then
    some (Action.type (actionArg.getD ""))
  else if action = some "scroll" then some (Action.scroll actionArg)
  else if action = some "press" ∧ truthy actionArg = true then
    some (Action.press (actionArg.getD ""))
  else none

/-- The browser as `run` sees it: the page used by the capture loop, and the calls `run`
makes itself.  `launch` stands for `firefox.launch`, `browser.newPage` and
`page.setViewportSize`; `setupObserver` is the evaluation in the page made by
`setupMutationObserver`, after which the observer is active; `perform` is the mouse or
keyboard call of the action, with the mutations that reach the observer meanwhile. -/
structure Browser (ε : Type) where
  page : Driver ε
  launch : ε → Except String ε
  goto : String → ε → Except String ε
  setupObserver : ε → Except String ε
  perform : Action → ε → Except String (ε × List Arrival)
  close : ε → Except String ε

/-- The action step of `run`: nothing when no action was chosen. -/
def performAction {ε : Type} (B : Browser ε) (action : Option Action) (e : ε) :
    Except String (ε × List Arrival) :=
  match action with
  | none => .ok (e, [])
  | some a => B.perform a e

/-- The function `run` up to `browser.close()`, with the final state of the loop.  The
arguments are `process.argv[2]`, `[3]` and `[4]`. -/
def runState {ε : Type} (B : Browser ε) (url action actionArg : Option String) (fuel : Nat)
    (e : ε) : Outcome (LoopState ε) :=
  let target := if truthy url then url.getD "" else "https://example.com"
  match B.launch e with
  | .error err => .threw err
  | .ok launched =>
    match B.goto target launched with
    | .error err => .threw err
    | .ok loaded =>
      match B.setupObserver loaded with
      | .error err => .threw err
      | .ok observed =>
        match performAction B (selectAction action actionArg) observed with
        | .error err => .threw err
        | .ok acted =>
          match captureRun B.page MAX_SCREENSHOTS TIMEOUT_MS DEBOUNCE_MS "." fuel acted.1
              (observe setupMutationObserver acted.2) with
          | .returned s =>
            match B.close s.env with
            | .error err => .threw err
            | .ok closed => .returned { s with env := closed }
          | .threw err => .threw err
          | .outOfFuel => .outOfFuel

/-- The function `run` of the source: the session it returns (and writes to
`changes.json`), or the error it throws. -/
def run {ε : Type} (B : Browser ε) (url action actionArg : Option String) (fuel : Nat)
    (e : ε) : Outcome Results :=
  (runState B url action actionArg fuel e).results

/-- A call made to the browser. -/
inductive Call where
  | launch
  | goto (url : String)
  | setupObserver
  | perform (action : Action)
  | waitForTimeout (ms : Int)
  | evaluate
  | screenshot (path : String)
  | close
deriving DecidableEq, Repr

/-- The page `D` with a log: every call that succeeds is appended to the log kept beside
the state of the browser. -/
def Driver.traced {ε : Type} (D : Driver ε) : Driver (ε × List Call) :=
  { now := fun s => D.now s.1
    waitForTimeout := fun ms s =>
      (((D.waitForTimeout ms s.1).1, s.2 ++ [Call.waitForTimeout ms]),
        (D.waitForTimeout ms s.1).2)
    evaluate := fun s => (((D.evaluate s.1).1, s.2 ++ [Call.evaluate]), (D.evaluate s.1).2)
    screenshot := fun path s =>
      match D.screenshot path s.1 with
      | .error err => .error err
      | .ok shot => .ok ((shot.1, s.2 ++ [Call.screenshot path]), shot.2) }

/-- The browser `B` with a log of the calls made to it. -/
def Browser.traced {ε : Type} (B : Browser ε) : Browser (ε × List Call) :=
  { page := B.page.traced
    launch := fun s => (B.launch s.1).map (fun e => (e, s.2 ++ [Call.launch]))
    goto := fun url s => (B.goto url s.1).map (fun e => (e, s.2 ++ [Call.goto url]))
    setupObserver := fun s =>
      (B.setupObserver s.1).map (fun e => (e, s.2 ++ [Call.setupObserver]))
    perform := fun a s =>
      (B.perform a s.1).map (fun r => ((r.1, s.2 ++ [Call.perform a]), r.2))
    close := fun s => (B.close s.1).map (fun e => (e, s.2 ++ [Call.close])) }

/-- A scripted browser for `run`: the page is `scriptDriver`, the calls of `run` succeed
and take no time, and the action hands out the next batch of the feed. -/
def scriptBrowser : Browser Script :=
  { page := scriptDriver
    launch := fun s => .ok s
    goto := fun _ s => .ok s
    setupObserver := fun s => .ok s
    perform := fun _ s => .ok ({ s with feed := s.feed.tail }, s.feed.headD [])
    close := fun s => .ok s }

/-! ## Invariants of the page and of the session -/

/-- The flag is backed by the buffer: when `__significantChange` is set, a record with
`significant = true` is in `__mutations`. -/
def Window.FlagBacked (w : Window) : Prop :=
  w.significantChange = true → ∃ d ∈ w.mutations, d.significant = true

/-- Atomic delivery: in every tick, no mutation reaches the observer between the
evaluation that reads and clears the flag and the evaluation of `getMutations` that
follows it. -/
def Driver.AtomicDelivery {ε : Type} (D : Driver ε) (debounceMs : Int) : Prop :=
  ∀ e, (D.evaluate (D.evaluate (D.waitForTimeout debounceMs e).1).1).2 = []

/-- A scripted browser with atomic delivery: as `scriptDriver`, except that no mutation
arrives during an evaluation in the page (the feed is handed out by the waits and the
screenshots only). -/
def calmDriver : Driver Script :=
  { now := fun s => s.clock
    waitForTimeout := fun ms s =>
      ({ clock := s.clock + ms, feed := s.feed.tail }, s.feed.headD [])
    evaluate := fun s => (s, [])
    screenshot := fun _ s => .ok ({ s with feed := s.feed.tail }, s.feed.headD []) }

/-- The feed of the end-to-end scenario for `calmDriver`: the batches go to the initial
screenshot, the wait and the screenshot of tick 1, the wait of tick 2 and the wait of
tick 3. -/
def calmFeed : List (List Arrival) :=
  [[], [insertion], [], [cursorChange], [textChange]]

/-- The entry `entry` reports the batch `batch`: its two counts are present and add up to
the size of the batch. -/
def CountsMatch (entry : TimelineEntry) (batch : List Detail) : Prop :=
  ∃ significant trivial, entry.significantCount = some significant ∧
    entry.trivialCount = some trivial ∧ significant + trivial = batch.length

/-- The invariant of the session in a state of the loop: `screenshots` and `timeline` have
`count` elements; `significantMutations` is at most `totalMutations` and is the sum of the
lengths of the mutation lists of the entries; the timeline is the initial entry followed
by one entry per drained batch, whose two counts add up to the size of that batch. -/
structure SessionOk {ε : Type} (s : LoopState ε) : Prop where
  screenshots_length : s.results.screenshots.length = s.count
  timeline_length : s.results.timeline.length = s.count
  significant_le : s.results.significantMutations ≤ s.results.totalMutations
  significant_sum : s.results.significantMutations =
    (s.results.timeline.map (fun entry => entry.mutations.length)).sum
  counts : ∃ rest, s.results.timeline = initialEntry :: rest ∧
    List.Forall₂ CountsMatch rest s.drains

end DomScreenshot

/-! # Desktop control (`implementation/browser-tools/desktop_control.js`)

The function `scroll`.  The numbers of the source are doubles.  The ones that occur in
`scroll` are `NaN`, the two infinities and integers, except for the quotient `n / 50`, which
is kept as a fraction whose denominator is a power of two.  Every operation is computed
exactly on integers and then rounded to the nearest double, a tie going to the even
significand: `parseInt` rounds the integer it reads, `n / 50` rounds the quotient, and `i++`
rounds the sum.  For a decimal numeral of more than 20 significant digits ECMAScript lets
an implementation read the digits after the 20th as zeros; `parseInt` here reads all of
them. -/

namespace DesktopControl

/-- The white space and line terminator characters that `parseInt` skips. -/
def isStrWhiteSpaceChar (c : Char) : Bool :=
  c.toNat ∈ [0x9, 0xA, 0xB, 0xC, 0xD, 0x20, 0xA0, 0x1680, 0x2000, 0x2001, 0x2002, 0x2003,
    0x2004, 0x2005, 0x2006, 0x2007, 0x2008, 0x2009, 0x200A, 0x2028, 0x2029, 0x202F, 0x205F,
    0x3000, 0xFEFF]

/-- The value of `c` as a digit in the given radix, if it is one. -/
def digitValue (radix : Nat) (c : Char) : Option Nat :=
  let value : Option Nat :=
    if '0' ≤ c ∧ c ≤ '9' then some (c.toNat - '0'.toNat)
    else if 'a' ≤ c ∧ c ≤ 'z' then some (c.toNat - 'a'.toNat + 10)
    else if 'A' ≤ c ∧ c ≤ 'Z' then some (c.toNat - 'A'.toNat + 10)
    else none
  value.filter (fun v => v < radix)

/-- The digits of the longest prefix made of digits of the given radix. -/
def takeDigits (radix : Nat) : List Char → List Nat
  | [] => []
  | c :: cs =>
    match digitValue radix c with
    | some d => d :: takeDigits radix cs
    | none => []

/-- The numbers that `scroll` computes with: `NaN`, the integers that are doubles, and the
two infinities.  The two zeros of JavaScript are one `int 0` here; `scroll` treats them
alike (neither is `> 0`, and both give zero clicks). -/
inductive JsNumber where
  | nan
  | int (value : Int)
  | infinity (negative : Bool)
deriving DecidableEq, Repr

/-- The quotient `a / b` rounded to the nearest integer, a tie going to the even one. -/
def roundHalfEven (a b : Nat) : Nat :=
  if 2 * (a % b) < b then a / b
  else if b < 2 * (a % b) then a / b + 1
  else if a / b % 2 = 0 then a / b
  else a / b + 1

/-- The position of the leading binary digit of `a`, found in at most `fuel` halvings. -/
def log2Aux : Nat → Nat → Nat
  | 0, _ => 0
  | fuel + 1, a => if a < 2 then 0 else log2Aux fuel (a / 2) + 1

/-- The position of the leading binary digit of `a`: `2 ^ log2 a ≤ a < 2 ^ (log2 a + 1)`
for a positive `a`. -/
def log2 (a : Nat) : Nat :=
  log2Aux a a

/-- The natural number `a` rounded to 53 significant binary digits, a tie going to the even
significand: the double nearest to `a`, as long as the result is below `2 ^ 1024`. -/
def roundToDouble (a : Nat) : Nat :=
  roundHalfEven a (2 ^ (log2 a - 52)) * 2 ^ (log2 a - 52)

/-- The double nearest to the integer of the given sign and magnitude: when the rounded
magnitude reaches `2 ^ 1024` (its leading binary digit is at position 1024 or higher) it is
no double and the result is an infinity. -/
def toDouble (negative : Bool) (magnitude : Nat) : JsNumber :=
  if log2 (roundToDouble magnitude) < 1024 then
    .int (if negative then -(roundToDouble magnitude : Int) else (roundToDouble magnitude : Int))
  else .infinity negative

/-- JavaScript `parseInt(amount)` with no radix: the integer written at the start of the
string, rounded to the nearest double; `NaN` when there is no digit.  An absent argument is
converted to the string `undefined`. -/
def parseInt (amount : Option String) : JsNumber :=
  let trimmed := (amount.getD "undefined").data.dropWhile isStrWhiteSpaceChar
  let negative : Bool := trimmed.head? = some '-'
  let unsigned :=
    if trimmed.head? = some '-' ∨ trimmed.head? = some '+' then trimmed.tail else trimmed
  let hex := ['0', 'x'].isPrefixOf unsigned || ['0', 'X'].isPrefixOf unsigned
  let radix := if hex then 16 else 10
  let digits := takeDigits radix (if hex then unsigned.drop 2 else unsigned)
  if digits.isEmpty then .nan
  else toDouble negative (digits.foldl (fun acc d => acc * radix + d) (0 : Nat))

/-- The binary scale at which the quotient `a / b` of two positive integers has a
significand of 53 binary digits: the `k` with `2 ^ 52 ≤ a / b * 2 ^ k < 2 ^ 53`. -/
def quotientScale (a b : Nat) : Int :=
  let k : Int := 52 + (log2 b : Int) - (log2 a : Int)
  if a * 2 ^ k.toNat < b * 2 ^ 52 * 2 ^ (-k).toNat then k + 1 else k

/-- The double nearest to the quotient `a / b` of two positive integers, a tie going to the
even significand, as a fraction: the numerator and the denominator, a power of two.  (The
quotients of `scroll`, of a double by 50, are neither too large nor too small for a
double.) -/
def divDouble (a b : Nat) : Nat × Nat :=
  let k := quotientScale a b
  (roundHalfEven (a * 2 ^ k.toNat) (b * 2 ^ (-k).toNat) * 2 ^ (-k).toNat, 2 ^ k.toNat)

/-- The expression `Math.abs(Math.round(n / 50))` for an integer double `n`: the quotient
is rounded to the nearest double, and `Math.round` takes that double to the nearest
integer, a tie going up. -/
def absRoundDiv50 (n : Int) : Nat :=
  if n = 0 then 0
  else
    let quotient := divDouble n.natAbs 50
    let signed : Int := if n < 0 then -(quotient.1 : Int) else (quotient.1 : Int)
    ((2 * signed + (quotient.2 : Int)) / (2 * (quotient.2 : Int))).natAbs

/-- The desktop as `scroll` sees it: the call `xte(commands)`, which runs the program
`xte` with the given arguments and throws when the program cannot be started. -/
structure Desktop (σ : Type) where
  xte : List String → σ → Except String σ

/-- How a call of `scroll` ends: it returns, a call of `xte` throws, or the bound on the
number of loop iterations is used up with the loop still running. -/
inductive ScrollOutcome (σ : Type) where
  | returned (s : σ)
  | threw (err : String)
  | outOfFuel
deriving DecidableEq, Repr

/-- The comparison `i < clicks`, where `clicks = none` is `Infinity`. -/
def lessThan (i : Nat) : Option Nat → Bool
  | none => true
  | some c => decide (i < c)

/-- The `for` loop of `scroll`, `for (let i = 0; i < clicks; i++) xte(command)`, from the
value `i` of the counter on.  The counter is a double, so `i++` is the sum rounded to the
nearest double.  `fuel` bounds the number of tests of the loop condition. -/
def clickLoop {σ : Type} (X : Desktop σ) (command : String) (clicks : Option Nat) :
    Nat → Nat → σ → ScrollOutcome σ
  | 0, _, _ => .outOfFuel
  | fuel + 1, i, s =>
    if lessThan i clicks then
      match X.xte [command] s with
      | .error err => .threw err
      | .ok s1 => clickLoop X command clicks fuel (roundToDouble (i + 1)) s1
    else .returned s

/-- The function `scroll(amount)`. -/
def scroll {σ : Type} (X : Desktop σ) (amount : Option String) (fuel : Nat) (s : σ) :
    ScrollOutcome σ :=
  match parseInt amount with
  | .nan => .returned s
  | .int n =>
    let button : Nat := if n > 0 then 5 else 4
    let clicks := absRoundDiv50 n
    clickLoop X ("mouseclick " ++ toString button) (some clicks) fuel 0 s
  | .infinity negative =>
    let button : Nat := if negative then 4 else 5
    clickLoop X ("mouseclick " ++ toString button) none fuel 0 s

/-- A desktop that records the arguments of every `xte` call, in order, and never
fails. -/
def recorder : Desktop (List (List String)) :=
  { xte := fun commands log => .ok (log ++ [commands]) }

end DesktopControl

/-! # Running commands (`implementation/browser-tools/run_command.js`) -/

namespace RunCommand

/-- The object `result` with which the promise of `runCommand` resolves; `code` is `none`
when the process was ended by a signal (`null`). -/
structure CommandResult where
  stdout : String
  stderr : String
  code : Option Int
  timedOut : Bool
  duration : Int
deriving DecidableEq, Repr

/-- An element of the array `runCommands` returns: the object `{ cmd, ...result }`. -/
structure CommandEntry where
  cmd : String
  result : CommandResult
deriving DecidableEq, Repr

/-- The system as `runCommands` sees it: `runCommand(cmd, options)` for the options of the
call, which resolves with a result when the process closes and rejects when the process
cannot be started. -/
structure Shell (σ : Type) where
  runCommand : String → σ → Except String (CommandResult × σ)

/-- The `for` loop of `runCommands`, with the commands still to run and the array
`results` built so far. -/
def commandLoop {σ : Type} (S : Shell σ) (continueOnError : Bool) :
    List String → List CommandEntry → σ → Except String (List CommandEntry × σ)
  | [], results, s => .ok (results, s)
  | cmd :: rest, results, s =>
    match S.runCommand cmd s with
    | .error err => .error err
    | .ok ran =>
      let results := results ++ [{ cmd := cmd, result := ran.1 }]
      if ran.1.code ≠ some 0 ∧ continueOnError = false then .ok (results, ran.2)
      else commandLoop S continueOnError rest results ran.2

/-- The function `runCommands(commands, options)`; `continueOnError` is the truth value of
`options.continueOnError`. -/
def runCommands {σ : Type} (S : Shell σ) (commands : List String) (continueOnError : Bool)
    (s : σ) : Except String (List CommandEntry × σ) :=
  commandLoop S continueOnError commands [] s

/-- A scripted system: the exit codes of the commands to come, one per command run; the
output is empty and, when the script is used up, the exit code is 0. -/
def scriptShell : Shell (List (Option Int)) :=
  { runCommand := fun _ codes =>
      .ok ({ stdout := "", stderr := "", code := codes.headD (some 0), timedOut := false,
             duration := 0 }, codes.tail) }

end RunCommand

namespace DomScreenshot

/-! ## The string operations -/

/-- The test `includesChars` is the infix relation on lists of characters. -/
theorem includesChars_iff (p s : List Char) : includesChars p s = true ↔ p <:+: s := by
  induction s with
  | nil => simp [includesChars, List.isEmpty_iff]
  | cons c cs ih =>
    rw [includesChars, Bool.or_eq_true, ih, List.isPrefixOf_iff_prefix,
      List.infix_cons_iff]

/-- The test `includes s p` holds exactly when `s` is `before ++ p ++ after`. -/
theorem includes_iff (s p : String) :
    includes s p = true ↔ ∃ before after, s.data = before ++ p.data ++ after := by
  rw [includes, includesChars_iff]
  constructor
  · rintro ⟨before, after, h⟩
    exact ⟨before, after, h.symm⟩
  · rintro ⟨before, after, h⟩
    exact ⟨before, after, h.symm⟩

/-! ## The classifier -/

theorem elementTags_length (nodes : List Node) :
    (elementTags nodes).length = min 3 (nodes.filter (fun n => n.nodeType == 1)).length := by
  simp [elementTags]

theorem elementTags_nonempty_iff (nodes : List Node) :
    ((elementTags nodes).length != 0) = true ↔ ∃ n ∈ nodes, n.nodeType = 1 := by
  rw [elementTags_length]
  constructor
  · intro h
    have hpos : 0 < (nodes.filter (fun n => n.nodeType == 1)).length := by
      rcases Nat.eq_zero_or_pos (nodes.filter (fun n => n.nodeType == 1)).length with h0 | h0
      · simp [h0] at h
      · exact h0
    obtain ⟨n, hn⟩ := List.exists_mem_of_length_pos hpos
    rw [List.mem_filter] at hn
    exact ⟨n, hn.1, by simpa using hn.2⟩
  · rintro ⟨n, hn, h1⟩
    have hmem : n ∈ nodes.filter (fun n => n.nodeType == 1) := by
      rw [List.mem_filter]
      exact ⟨hn, by simpa using h1⟩
    have hpos : 0 < (nodes.filter (fun n => n.nodeType == 1)).length :=
      List.length_pos_of_mem hmem
    have : min 3 (nodes.filter (fun n => n.nodeType == 1)).length ≠ 0 := by omega
    simpa using this

theorem elementTags_empty_of_nil : elementTags [] = [] := by
  simp [elementTags]

theorem exists_element_length_pos (nodes : List Node)
    (h : ∃ n ∈ nodes, n.nodeType = 1) : nodes.length > 0 := by
  obtain ⟨n, hn, _⟩ := h
  exact List.length_pos_of_mem hn

theorem childListBranch_significant (m : MutationRecord) (d : Detail)
    (hd : d.significant = false) :
    (childListBranch m d).significant = true ↔
      (∃ n ∈ m.addedNodes, n.nodeType = 1) ∨ (∃ n ∈ m.removedNodes, n.nodeType = 1) := by
  have ha := elementTags_nonempty_iff m.addedNodes
  have hr := elementTags_nonempty_iff m.removedNodes
  have pa := exists_element_length_pos m.addedNodes
  have pr := exists_element_length_pos m.removedNodes
  by_cases ea : ∃ n ∈ m.addedNodes, n.nodeType = 1
  · by_cases er : ∃ n ∈ m.removedNodes, n.nodeType = 1
    · simp only [childListBranch, pa ea, pr er, ha.mpr ea, hr.mpr er, if_true, ea, er, or_self]
    · have hr2 : ¬ ((elementTags m.removedNodes).length != 0) = true := fun h => er (hr.mp h)
      simp only [childListBranch, pa ea, ha.mpr ea, hr2, if_true, if_false, ea, er, or_false,
        ite_self]
      simp
  · have ha2 : ¬ ((elementTags m.addedNodes).length != 0) = true := fun h => ea (ha.mp h)
    by_cases er : ∃ n ∈ m.removedNodes, n.nodeType = 1
    · simp only [childListBranch, pr er, hr.mpr er, ha2, if_true, if_false, ea, er, or_true,
        ite_self]
    · have hr2 : ¬ ((elementTags m.removedNodes).length != 0) = true := fun h => er (hr.mp h)
      simp only [childListBranch, ha2, hr2, if_false, ea, er, or_self, ite_self, hd]
      simp [hd]

theorem observerDetail_childList (now : Int) (m : MutationRecord)
    (h : m.type = "childList") :
    observerDetail now m = childListBranch m (initialDetail now m) := by
  simp [observerDetail, h]

theorem observerDetail_attributes (now : Int) (m : MutationRecord)
    (h : m.type = "attributes") :
    observerDetail now m = attributesBranch m (initialDetail now m) := by
  have hne : ¬ (m.type = "childList") := by rw [h]; decide
  simp [observerDetail, h]

theorem observerDetail_characterData (now : Int) (m : MutationRecord)
    (h : m.type = "characterData") :
    observerDetail now m = characterDataBranch m (initialDetail now m) := by
  have h1 : ¬ (m.type = "childList") := by rw [h]; decide
  have h2 : ¬ (m.type = "attributes") := by rw [h]; decide
  simp [observerDetail, h]

theorem observerDetail_other (now : Int) (m : MutationRecord)
    (h1 : m.type ≠ "childList") (h2 : m.type ≠ "attributes")
    (h3 : m.type ≠ "characterData") :
    observerDetail now m = initialDetail now m := by
  simp [observerDetail, h1, h2, h3]

theorem style_not_allow_listed :
    (some "style" : Option String).any (fun a => SIGNIFICANT_ATTRS.contains a) = false := by
  decide

theorem attributesBranch_newValue (m : MutationRecord) (d : Detail) :
    (attributesBranch m d).newValue =
      (getAttribute m.target m.attributeName).map (fun v => slice0 v 50) := by
  unfold attributesBranch
  simp only []
  split_ifs <;> rfl

theorem getD_of_truthy (o : Option String) :
    (if truthy o then o.getD "" else "") = o.getD "" := by
  cases o with
  | none => simp [truthy]
  | some v =>
    by_cases hv : v = ""
    · simp [truthy, hv]
    · simp [truthy, hv]

theorem attributesBranch_style (m : MutationRecord) (d : Detail)
    (hs : m.attributeName = some "style") (hd : d.significant = false) :
    (attributesBranch m d).significant =
      (!(includes ((attributesBranch m d).newValue.getD "") "caret-color" ||
          includes ((attributesBranch m d).newValue.getD "") "cursor" ||
          includes ((attributesBranch m d).newValue.getD "") "outline") &&
        (includes ((attributesBranch m d).newValue.getD "") "display" ||
          includes ((attributesBranch m d).newValue.getD "") "visibility")) := by
  rw [attributesBranch_newValue]
  unfold attributesBranch
  simp only [hs, style_not_allow_listed, getD_of_truthy, TRIVIAL_PATTERNS, List.any_cons,
    List.any_nil, Bool.or_false, Bool.false_eq_true, if_false, if_true]
  generalize (Option.map (fun v => slice0 v 50) (getAttribute m.target (some "style"))).getD ""
    = v
  cases includes v "caret-color" <;> cases includes v "cursor" <;>
    cases includes v "outline" <;> cases includes v "display" <;>
    cases includes v "visibility" <;> simp [hd]

theorem attributesBranch_other (m : MutationRecord) (d : Detail)
    (hs : m.attributeName ≠ some "style") (hd : d.significant = false) :
    (attributesBranch m d).significant =
      m.attributeName.any (fun a => SIGNIFICANT_ATTRS.contains a) := by
  unfold attributesBranch
  simp only [hs, if_false]
  cases m.attributeName.any (fun a => SIGNIFICANT_ATTRS.contains a) <;> simp [hd]

/-- C1: for a `childList` mutation the record the observer emits is significant if and
only if an added node or a removed node is an element (`nodeType` 1). -/
theorem childList_significant_iff (now : Int) (m : MutationRecord)
    (h : m.type = "childList") :
    (observerDetail now m).significant = true ↔
      (∃ n ∈ m.addedNodes, n.nodeType = 1) ∨ (∃ n ∈ m.removedNodes, n.nodeType = 1) := by
  rw [observerDetail_childList now m h]
  exact childListBranch_significant m _ rfl

/-- C1 at concrete mutations: adding one `div` is significant, adding one text node and
removing another is not. -/
theorem childList_significant_iff_witness :
    (observerDetail 0 (childListMutation [elementNode "DIV"] [])).significant = true ∧
    ¬ (observerDetail 0
        (childListMutation [textNode "a"] [textNode "b"])).significant = true :=
  ⟨(childList_significant_iff 0 (childListMutation [elementNode "DIV"] []) rfl).mpr
      (Or.inl ⟨elementNode "DIV", by decide, by decide⟩),
   fun hs =>
    absurd ((childList_significant_iff 0
      (childListMutation [textNode "a"] [textNode "b"]) rfl).mp hs) (by decide)⟩

/-- C2: for an attribute change of `style`, the recorded new value is the value of the
target's `style` attribute cut to its first 50 UTF-16 units (nothing when the target has no
such attribute), and with `v` that cut value (the empty string when there is none) the
record is significant if and only if `v` contains none of `caret-color`, `cursor`,
`outline` and contains `display` or `visibility`. -/
theorem style_significant_iff (now : Int) (m : MutationRecord)
    (h : m.type = "attributes") (hs : m.attributeName = some "style") :
    (observerDetail now m).newValue =
        (getAttribute m.target (some "style")).map (fun value => slice0 value 50) ∧
    ((observerDetail now m).significant = true ↔
      ((includes (((getAttribute m.target (some "style")).map
            (fun value => slice0 value 50)).getD "") "caret-color" = false ∧
        includes (((getAttribute m.target (some "style")).map
            (fun value => slice0 value 50)).getD "") "cursor" = false ∧
        includes (((getAttribute m.target (some "style")).map
            (fun value => slice0 value 50)).getD "") "outline" = false) ∧
       (includes (((getAttribute m.target (some "style")).map
            (fun value => slice0 value 50)).getD "") "display" = true ∨
        includes (((getAttribute m.target (some "style")).map
            (fun value => slice0 value 50)).getD "") "visibility" = true))) := by
  have hv : (attributesBranch m (initialDetail now m)).newValue =
      (getAttribute m.target (some "style")).map (fun value => slice0 value 50) := by
    rw [attributesBranch_newValue, hs]
  rw [observerDetail_attributes now m h]
  refine ⟨hv, ?_⟩
  rw [attributesBranch_style m _ hs rfl, hv]
  generalize ((getAttribute m.target (some "style")).map
    (fun value => slice0 value 50)).getD "" = v
  cases includes v "caret-color" <;> cases includes v "cursor" <;>
    cases includes v "outline" <;> cases includes v "display" <;>
    cases includes v "visibility" <;> simp

/-- C2 at concrete mutations: the style value `display: none` is recorded whole and is
significant, and so is `visibility: hidden`; a value with both `cursor` and `display` is
not significant; and a value whose `display` lies beyond the first 50 UTF-16 units (here
after 24 characters of two units each) is recorded without it and is not significant. -/
theorem style_significant_iff_witness :
    (observerDetail 0 (attributeMutation "style" "display: none")).newValue =
        some "display: none" ∧
    (observerDetail 0 (attributeMutation "style" "display: none")).significant = true ∧
    (observerDetail 0 (attributeMutation "style" "visibility: hidden")).significant = true ∧
    ¬ (observerDetail 0
        (attributeMutation "style" "display: none; cursor: pointer")).significant = true ∧
    (observerDetail 0 (attributeMutation "style"
        "𝐀𝐀𝐀𝐀𝐀𝐀𝐀𝐀𝐀𝐀𝐀𝐀𝐀𝐀𝐀𝐀𝐀𝐀𝐀𝐀𝐀𝐀𝐀𝐀 display: none")).newValue =
        some "𝐀𝐀𝐀𝐀𝐀𝐀𝐀𝐀𝐀𝐀𝐀𝐀𝐀𝐀𝐀𝐀𝐀𝐀𝐀𝐀𝐀𝐀𝐀𝐀 d" ∧
    ¬ (observerDetail 0 (attributeMutation "style"
        "𝐀𝐀𝐀𝐀𝐀𝐀𝐀𝐀𝐀𝐀𝐀𝐀𝐀𝐀𝐀𝐀𝐀𝐀𝐀𝐀𝐀𝐀𝐀𝐀 display: none")).significant = true :=
  ⟨(style_significant_iff 0 (attributeMutation "style" "display: none") rfl rfl).1.trans
      (by decide),
   (style_significant_iff 0 (attributeMutation "style" "display: none") rfl rfl).2.mpr
      (by decide),
   (style_significant_iff 0 (attributeMutation "style" "visibility: hidden") rfl rfl).2.mpr
      (by decide),
   fun hs =>
    absurd ((style_significant_iff 0
      (attributeMutation "style" "display: none; cursor: pointer") rfl rfl).2.mp hs)
      (by decide),
   (style_significant_iff 0 (attributeMutation "style"
      "𝐀𝐀𝐀𝐀𝐀𝐀𝐀𝐀𝐀𝐀𝐀𝐀𝐀𝐀𝐀𝐀𝐀𝐀𝐀𝐀𝐀𝐀𝐀𝐀 display: none") rfl rfl).1.trans (by decide),
   fun hs =>
    absurd ((style_significant_iff 0 (attributeMutation "style"
      "𝐀𝐀𝐀𝐀𝐀𝐀𝐀𝐀𝐀𝐀𝐀𝐀𝐀𝐀𝐀𝐀𝐀𝐀𝐀𝐀𝐀𝐀𝐀𝐀 display: none") rfl rfl).2.mp hs) (by decide)⟩

/-- C3: for an attribute change whose attribute is not `style`, the record is significant
if and only if the attribute is one of the 14 allow-listed names; the value of the
attribute plays no part. -/
theorem attribute_significant_iff (now : Int) (m : MutationRecord)
    (h : m.type = "attributes") (hs : m.attributeName ≠ some "style") :
    (observerDetail now m).significant = true ↔
      ∃ a, m.attributeName = some a ∧
        a ∈ ["aria-expanded", "aria-hidden", "aria-selected", "aria-checked",
             "hidden", "disabled", "checked", "selected", "open",
             "display", "visibility", "src", "href", "value"] := by
  rw [observerDetail_attributes now m h, attributesBranch_other m _ hs rfl]
  cases m.attributeName with
  | none => simp
  | some a => simp [SIGNIFICANT_ATTRS]

/-- C3 at concrete mutations: a change of `aria-expanded` is significant and a change of
`data-foo` is not. -/
theorem attribute_significant_iff_witness :
    (observerDetail 0 (attributeMutation "aria-expanded" "false")).significant = true ∧
    ¬ (observerDetail 0 (attributeMutation "data-foo" "display")).significant = true :=
  ⟨(attribute_significant_iff 0 (attributeMutation "aria-expanded" "false") rfl
      (by decide)).mpr ⟨"aria-expanded", rfl, by decide⟩,
   fun hsig =>
    absurd ((attribute_significant_iff 0 (attributeMutation "data-foo" "display") rfl
      (by decide)).mp hsig) (by
        rintro ⟨a, ha, hmem⟩
        cases ha
        revert hmem
        decide)⟩

/-- C4: every `characterData` mutation is classified significant, whatever the text
content of its target is. -/
theorem characterData_significant (now : Int) (m : MutationRecord)
    (h : m.type = "characterData") :
    (observerDetail now m).significant = true := by
  rw [observerDetail_characterData now m h]
  rfl

/-- C4 at a concrete mutation: a text change to the empty string is significant. -/
theorem characterData_significant_witness :
    (observerDetail 0 (characterDataMutation "")).significant = true :=
  characterData_significant 0 (characterDataMutation "") rfl

/-- C5 (fails in the code): the style check reads the value cut to 50 characters.  A style
value whose `display` starts after character 50 is recorded as not significant although
the style rules on the full value make it significant, and a value with `display` in the
first 50 characters and `cursor` after them is recorded as significant although the rules
on the full value make it not significant. -/
theorem style_verdict_depends_on_truncation :
    ((observerDetail 0 (attributeMutation "style"
        "color: red; background-color: white; margin-top: 10px; display: none")).significant
        = false ∧
      specStyleVerdict
        "color: red; background-color: white; margin-top: 10px; display: none" = true) ∧
    ((observerDetail 0 (attributeMutation "style"
        "display: none; color: red; background-color: white; margin: 0; cursor: pointer")
        ).significant = true ∧
      specStyleVerdict
        "display: none; color: red; background-color: white; margin: 0; cursor: pointer"
        = false) := by
  decide

/-- C6: for a mutation whose type is none of `childList`, `attributes`, `characterData`
the observer emits the record it starts from, with `significant = false`; the observer is
a total function, so a record is emitted for every such mutation. -/
theorem other_type_not_significant (now : Int) (m : MutationRecord)
    (h1 : m.type ≠ "childList") (h2 : m.type ≠ "attributes")
    (h3 : m.type ≠ "characterData") :
    (observerDetail now m).significant = false ∧
    observerDetail now m =
      { type := m.type, target := selector m.target, timestamp := now, significant := false,
        added := none, removed := none, attr := none, newValue := none, text := none } := by
  rw [observerDetail_other now m h1 h2 h3]
  exact ⟨rfl, rfl⟩

/-- C6 at a concrete mutation of an unknown type that adds a `div`. -/
theorem other_type_not_significant_witness :
    (observerDetail 0
      { childListMutation [elementNode "DIV"] [] with type := "other" }).significant
      = false :=
  (other_type_not_significant 0
    { childListMutation [elementNode "DIV"] [] with type := "other" }
    (by decide) (by decide) (by decide)).1

/-! ## The capture loop: one iteration -/

theorem loopBody_of_flag_clear {ε : Type} (D : Driver ε) (debounceMs : Int)
    (outputDir : String) (startTime : Int) (s : LoopState ε)
    (h : (checkFlag D debounceMs s).1 = false) :
    loopBody D debounceMs outputDir startTime s = .ok (checkFlag D debounceMs s).2 := by
  simp [loopBody, h]

theorem loopBody_of_flag_set {ε : Type} (D : Driver ε) (debounceMs : Int)
    (outputDir : String) (startTime : Int) (s : LoopState ε)
    (h : (checkFlag D debounceMs s).1 = true) :
    loopBody D debounceMs outputDir startTime s =
      captureBlock D outputDir startTime (checkFlag D debounceMs s).2 := by
  simp [loopBody, h]

theorem checkFlag_results {ε : Type} (D : Driver ε) (debounceMs : Int) (s : LoopState ε) :
    (checkFlag D debounceMs s).2.results = s.results := rfl

theorem checkFlag_count {ε : Type} (D : Driver ε) (debounceMs : Int) (s : LoopState ε) :
    (checkFlag D debounceMs s).2.count = s.count := rfl

theorem checkFlag_drains {ε : Type} (D : Driver ε) (debounceMs : Int) (s : LoopState ε) :
    (checkFlag D debounceMs s).2.drains = s.drains := rfl

theorem captureBlock_ok {ε : Type} (D : Driver ε) (outputDir : String) (startTime : Int)
    (s s1 : LoopState ε) (h : captureBlock D outputDir startTime s = .ok s1) :
    s1.count = s.count + 1 ∧
    s1.results = record s.results (outputDir ++ "/" ++ shotFile s.count)
      (changeEntry s.count (D.now s.env - startTime) (getMutations D s).1)
      (getMutations D s).1 ∧
    s1.drains = s.drains ++ [(getMutations D s).1] := by
  unfold captureBlock at h
  simp only at h
  split at h
  · exact absurd h (by simp)
  · cases h
    exact ⟨rfl, rfl, rfl⟩

theorem captureBlock_of_screenshot_ok {ε : Type} (D : Driver ε) (outputDir : String)
    (startTime : Int) (s : LoopState ε) (shot : ε × List Arrival)
    (h : D.screenshot (outputDir ++ "/" ++ shotFile s.count) (getMutations D s).2.env
      = .ok shot) :
    ∃ s1, captureBlock D outputDir startTime s = .ok s1 := by
  unfold captureBlock
  simp only [h]
  exact ⟨_, rfl⟩

/-- What one execution of the loop body does to `count` and `results`: either the flag was
clear and both are unchanged, or the flag was set, `count` grows by one and `results`
records the batch drained. -/
theorem loopBody_ok {ε : Type} (D : Driver ε) (debounceMs : Int) (outputDir : String)
    (startTime : Int) (s s1 : LoopState ε)
    (h : loopBody D debounceMs outputDir startTime s = .ok s1) :
    ((checkFlag D debounceMs s).1 = false ∧ s1 = (checkFlag D debounceMs s).2) ∨
    ((checkFlag D debounceMs s).1 = true ∧ s1.count = s.count + 1 ∧
      s1.results = record s.results (outputDir ++ "/" ++ shotFile s.count)
        (changeEntry s.count (D.now (checkFlag D debounceMs s).2.env - startTime)
          (getMutations D (checkFlag D debounceMs s).2).1)
        (getMutations D (checkFlag D debounceMs s).2).1) := by
  cases hf : (checkFlag D debounceMs s).1 with
  | false =>
    left
    rw [loopBody_of_flag_clear D debounceMs outputDir startTime s hf] at h
    cases h
    exact ⟨rfl, rfl⟩
  | true =>
    right
    rw [loopBody_of_flag_set D debounceMs outputDir startTime s hf] at h
    have := captureBlock_ok D outputDir startTime _ s1 h
    exact ⟨rfl, this.1, this.2.1⟩

/-! ## The capture loop: invariants -/

/-- Induction over the loop: a property of the state that holds when the loop starts and
is kept by every execution of the body holds in the state the loop returns, where the
`while` condition is false. -/
theorem whileLoop_returned {ε : Type} (D : Driver ε) (maxShots : Nat)
    (timeoutMs debounceMs : Int) (outputDir : String) (startTime : Int)
    (P : LoopState ε → Prop)
    (hstep : ∀ s s1, P s → loopGuard D maxShots timeoutMs startTime s = true →
      loopBody D debounceMs outputDir startTime s = .ok s1 → P s1) :
    ∀ (fuel : Nat) (s s2 : LoopState ε), P s →
      whileLoop D maxShots timeoutMs debounceMs outputDir startTime fuel s = .returned s2 →
      P s2 ∧ loopGuard D maxShots timeoutMs startTime s2 = false := by
  intro fuel
  induction fuel with
  | zero =>
    intro s s2 hP h
    unfold whileLoop at h
    split_ifs at h with hg
    cases h
    exact ⟨hP, by simpa using hg⟩
  | succ n ih =>
    intro s s2 hP h
    unfold whileLoop at h
    split_ifs at h with hg
    · cases hb : loopBody D debounceMs outputDir startTime s with
      | error err => rw [hb] at h; exact absurd h (by simp)
      | ok s1 =>
        rw [hb] at h
        exact ih s1 s2 (hstep s s1 hP hg hb) h
    · cases h
      exact ⟨hP, by simpa using hg⟩

theorem shotFile_zero : shotFile 0 = "shot_0.png" := by decide

theorem timelineOk_start {ε : Type} (e : ε) (w : Window) (initialPath : String) :
    TimelineOk (startState e w initialPath) :=
  { length_eq := rfl
    head := rfl
    files := by
      show ["shot_0.png"] = List.map shotFile (List.range 1)
      rw [List.range_succ, List.range_zero]
      simp [shotFile_zero] }

theorem timelineOk_step {ε : Type} (D : Driver ε) (debounceMs : Int) (outputDir : String)
    (startTime : Int) (s s1 : LoopState ε) (hs : TimelineOk s)
    (h : loopBody D debounceMs outputDir startTime s = .ok s1) : TimelineOk s1 := by
  rcases loopBody_ok D debounceMs outputDir startTime s s1 h with ⟨_, rfl⟩ | ⟨_, hc, hr⟩
  · exact { length_eq := hs.length_eq, head := hs.head, files := hs.files }
  · refine { length_eq := ?_, head := ?_, files := ?_ }
    · rw [hr, hc]
      simp [record, hs.length_eq]
    · rw [hr]
      have hne : s.results.timeline ≠ [] := by
        intro hnil
        have := hs.head
        rw [hnil] at this
        simp at this
      simp only [record]
      rw [List.head?_append_of_ne_nil _ hne]
      exact hs.head
    · rw [hr, hc]
      simp [record, hs.files, List.range_succ, changeEntry]

theorem count_le_step {ε : Type} (D : Driver ε) (maxShots : Nat)
    (timeoutMs debounceMs : Int) (outputDir : String) (startTime : Int) (s s1 : LoopState ε)
    (hs : s.count ≤ maxShots) (hg : loopGuard D maxShots timeoutMs startTime s = true)
    (h : loopBody D debounceMs outputDir startTime s = .ok s1) : s1.count ≤ maxShots := by
  have hlt : s.count < maxShots := by
    simp only [loopGuard, Bool.and_eq_true, decide_eq_true_eq] at hg
    exact hg.2
  rcases loopBody_ok D debounceMs outputDir startTime s s1 h with ⟨_, rfl⟩ | ⟨_, hc, _⟩
  · exact hs
  · omega

/-! ## The capture loop: termination -/

theorem checkFlag_clock {ε : Type} (D : Driver ε) (debounceMs : Int) (s : LoopState ε)
    (hadv : D.Advances debounceMs) :
    D.now s.env + debounceMs ≤ D.now (checkFlag D debounceMs s).2.env := by
  have h1 := hadv.wait s.env
  have h2 := hadv.evaluate (D.waitForTimeout debounceMs s.env).1
  show D.now s.env + debounceMs ≤ D.now (D.evaluate (D.waitForTimeout debounceMs s.env).1).1
  omega

theorem captureBlock_clock {ε : Type} (D : Driver ε) (debounceMs : Int)
    (outputDir : String) (startTime : Int) (s s1 : LoopState ε)
    (hadv : D.Advances debounceMs)
    (h : captureBlock D outputDir startTime s = .ok s1) : D.now s.env ≤ D.now s1.env := by
  unfold captureBlock at h
  simp only at h
  split at h
  · exact absurd h (by simp)
  · rename_i shot hshot
    cases h
    have h1 := hadv.evaluate s.env
    have h2 := hadv.screenshot _ _ _ hshot
    show D.now s.env ≤ D.now shot.1
    have h3 : (getMutations D s).2.env = (D.evaluate s.env).1 := rfl
    rw [h3] at h2
    omega

theorem loopBody_clock {ε : Type} (D : Driver ε) (debounceMs : Int) (outputDir : String)
    (startTime : Int) (s s1 : LoopState ε) (hadv : D.Advances debounceMs)
    (h : loopBody D debounceMs outputDir startTime s = .ok s1) :
    D.now s.env + debounceMs ≤ D.now s1.env := by
  have hc := checkFlag_clock D debounceMs s hadv
  cases hf : (checkFlag D debounceMs s).1 with
  | false =>
    rw [loopBody_of_flag_clear D debounceMs outputDir startTime s hf] at h
    cases h
    exact hc
  | true =>
    rw [loopBody_of_flag_set D debounceMs outputDir startTime s hf] at h
    have := captureBlock_clock D debounceMs outputDir startTime _ s1 hadv h
    omega

theorem loopBody_succeeds {ε : Type} (D : Driver ε) (debounceMs : Int) (outputDir : String)
    (startTime : Int) (s : LoopState ε) (hnf : D.NeverFails) :
    ∃ s1, loopBody D debounceMs outputDir startTime s = .ok s1 := by
  cases hf : (checkFlag D debounceMs s).1 with
  | false => exact ⟨_, loopBody_of_flag_clear D debounceMs outputDir startTime s hf⟩
  | true =>
    rw [loopBody_of_flag_set D debounceMs outputDir startTime s hf]
    obtain ⟨shot, hshot⟩ := hnf
      (outputDir ++ "/" ++ shotFile (checkFlag D debounceMs s).2.count)
      (getMutations D (checkFlag D debounceMs s).2).2.env
    exact captureBlock_of_screenshot_ok D outputDir startTime _ shot hshot

/-- The loop returns within `fuel` executions of its body when `fuel` waits of
`debounceMs` cover what is left of the duration bound. -/
theorem whileLoop_returns {ε : Type} (D : Driver ε) (maxShots : Nat)
    (timeoutMs debounceMs : Int) (outputDir : String) (startTime : Int)
    (hadv : D.Advances debounceMs) (hnf : D.NeverFails) :
    ∀ (fuel : Nat) (s : LoopState ε),
      timeoutMs - (D.now s.env - startTime) ≤ fuel * debounceMs →
      ∃ s2, whileLoop D maxShots timeoutMs debounceMs outputDir startTime fuel s
        = .returned s2 := by
  intro fuel
  induction fuel with
  | zero =>
    intro s hrem
    unfold whileLoop
    have hg : loopGuard D maxShots timeoutMs startTime s = false := by
      simp only [loopGuard, Bool.and_eq_false_iff, decide_eq_false_iff_not]
      left
      simp only [Nat.cast_zero, zero_mul] at hrem
      omega
    simp [hg]
  | succ n ih =>
    intro s hrem
    unfold whileLoop
    cases hg : loopGuard D maxShots timeoutMs startTime s with
    | false => simp
    | true =>
      obtain ⟨s1, hb⟩ := loopBody_succeeds D debounceMs outputDir startTime s hnf
      have hclock := loopBody_clock D debounceMs outputDir startTime s s1 hadv hb
      simp only [hb, if_true]
      apply ih s1
      have : ((n + 1 : Nat) : Int) * debounceMs = n * debounceMs + debounceMs := by
        push_cast
        ring
      rw [this] at hrem
      omega

theorem captureRun_returns {ε : Type} (D : Driver ε) (maxShots : Nat)
    (timeoutMs debounceMs : Int) (outputDir : String) (e : ε) (w : Window)
    (hadv : D.Advances debounceMs) (hnf : D.NeverFails) (fuel : Nat)
    (hfuel : timeoutMs ≤ fuel * debounceMs) :
    ∃ s2, captureRun D maxShots timeoutMs debounceMs outputDir fuel e w = .returned s2 := by
  obtain ⟨shot, hshot⟩ := hnf (outputDir ++ "/" ++ "shot_0.png") e
  unfold captureRun
  simp only [hshot]
  apply whileLoop_returns D maxShots timeoutMs debounceMs outputDir _ hadv hnf
  show timeoutMs - (D.now shot.1 - D.now shot.1) ≤ fuel * debounceMs
  omega

theorem captureWithLoggingWith_returns {ε : Type} (D : Driver ε) (maxShots : Nat)
    (timeoutMs debounceMs : Int) (outputDir : String) (e : ε) (w : Window)
    (hadv : D.Advances debounceMs) (hnf : D.NeverFails) (fuel : Nat)
    (hfuel : timeoutMs ≤ fuel * debounceMs) :
    ∃ r, captureWithLoggingWith D maxShots timeoutMs debounceMs outputDir fuel e w
      = .returned r := by
  obtain ⟨s2, h⟩ :=
    captureRun_returns D maxShots timeoutMs debounceMs outputDir e w hadv hnf fuel hfuel
  exact ⟨s2.results, by simp [captureWithLoggingWith, h, Outcome.results]⟩

/-- A returned session is the `results` of a final state of `captureRun`. -/
theorem captureWithLoggingWith_returned {ε : Type} (D : Driver ε) (maxShots : Nat)
    (timeoutMs debounceMs : Int) (outputDir : String) (fuel : Nat) (e : ε) (w : Window)
    (r : Results)
    (h : captureWithLoggingWith D maxShots timeoutMs debounceMs outputDir fuel e w
      = .returned r) :
    ∃ s2, captureRun D maxShots timeoutMs debounceMs outputDir fuel e w = .returned s2 ∧
      s2.results = r := by
  unfold captureWithLoggingWith at h
  cases hrun : captureRun D maxShots timeoutMs debounceMs outputDir fuel e w with
  | returned s2 =>
    rw [hrun] at h
    simp only [Outcome.results, Outcome.returned.injEq] at h
    exact ⟨s2, rfl, h⟩
  | threw err => rw [hrun] at h; simp [Outcome.results] at h
  | outOfFuel => rw [hrun] at h; simp [Outcome.results] at h

/-- An invariant of the loop that holds in the start state holds in the final state of
every run that returns. -/
theorem captureRun_returned {ε : Type} (D : Driver ε) (maxShots : Nat)
    (timeoutMs debounceMs : Int) (outputDir : String) (P : LoopState ε → Prop)
    (hstart : ∀ e w, P (startState e w (outputDir ++ "/" ++ "shot_0.png")))
    (hstep : ∀ startTime s s1, P s → loopGuard D maxShots timeoutMs startTime s = true →
      loopBody D debounceMs outputDir startTime s = .ok s1 → P s1)
    (fuel : Nat) (e : ε) (w : Window) (s2 : LoopState ε)
    (h : captureRun D maxShots timeoutMs debounceMs outputDir fuel e w = .returned s2) :
    P s2 := by
  unfold captureRun at h
  simp only at h
  split at h
  · exact absurd h (by simp)
  · rename_i shot hshot
    exact (whileLoop_returned D maxShots timeoutMs debounceMs outputDir (D.now shot.1) P
      (hstep (D.now shot.1)) fuel _ s2 (hstart _ _) h).1

/-! ## The scripted browser is well behaved -/

theorem scriptDriver_advances (debounceMs : Int) : scriptDriver.Advances debounceMs :=
  { wait := fun e => le_refl _
    evaluate := fun e => le_refl _
    screenshot := by
      intro path e shot h
      simp only [scriptDriver, Except.ok.injEq] at h
      rw [← h]
      exact le_refl _ }

theorem scriptDriver_neverFails : scriptDriver.NeverFails :=
  fun _ _ => ⟨_, rfl⟩

/-! ## The capture loop: bounds on the session -/

/-- C7: with a snapshot limit `maxShots ≥ 1`, every session the capture loop returns,
whatever the browser does, has at least 1 and at most `maxShots` timeline entries, and its
first entry has `time_ms = 0`, type `initial` and no mutations.  A session is returned
whenever the clock advances and no screenshot fails. -/
theorem captureWithLogging_timeline_bounds {ε : Type} (D : Driver ε) (maxShots : Nat)
    (timeoutMs debounceMs : Int) (outputDir : String) (e : ε) (w : Window)
    (hN : 1 ≤ maxShots) :
    (∀ fuel r,
      captureWithLoggingWith D maxShots timeoutMs debounceMs outputDir fuel e w
        = .returned r →
      1 ≤ r.timeline.length ∧ r.timeline.length ≤ maxShots ∧
      ∃ first, r.timeline.head? = some first ∧ first.time_ms = 0 ∧
        first.type = "initial" ∧ first.mutations = []) ∧
    (D.Advances debounceMs → D.NeverFails →
      ∀ fuel : Nat, timeoutMs ≤ fuel * debounceMs →
        ∃ r, captureWithLoggingWith D maxShots timeoutMs debounceMs outputDir fuel e w
          = .returned r) := by
  refine ⟨?_, fun hadv hnf fuel hfuel =>
    captureWithLoggingWith_returns D maxShots timeoutMs debounceMs outputDir e w hadv hnf
      fuel hfuel⟩
  intro fuel r h
  obtain ⟨s2, hrun, rfl⟩ :=
    captureWithLoggingWith_returned D maxShots timeoutMs debounceMs outputDir fuel e w r h
  have hinv : TimelineOk s2 ∧ 1 ≤ s2.count ∧ s2.count ≤ maxShots := by
    refine captureRun_returned D maxShots timeoutMs debounceMs outputDir
      (fun s => TimelineOk s ∧ 1 ≤ s.count ∧ s.count ≤ maxShots) ?_ ?_ fuel e w s2 hrun
    · intro e1 w1
      exact ⟨timelineOk_start e1 w1 _, le_refl 1, hN⟩
    · intro startTime s s1 hs hg hb
      refine ⟨timelineOk_step D debounceMs outputDir startTime s s1 hs.1 hb, ?_,
        count_le_step D maxShots timeoutMs debounceMs outputDir startTime s s1 hs.2.2 hg hb⟩
      rcases loopBody_ok D debounceMs outputDir startTime s s1 hb with ⟨_, rfl⟩ | ⟨_, hc, _⟩
      · exact hs.2.1
      · omega
  obtain ⟨hok, hpos, hle⟩ := hinv
  refine ⟨?_, ?_, initialEntry, hok.head, rfl, rfl, rfl⟩
  · rw [hok.length_eq]; exact hpos
  · rw [hok.length_eq]; exact hle

/-- C7 on a concrete run: limit 3, duration 100 ms, debounce 10 ms, one `div` inserted
during the first wait.  The run returns a session of 2 entries, within the bounds. -/
theorem captureWithLogging_timeline_bounds_witness :
    1 ≤ 3 ∧
    ∃ r, captureWithLoggingWith scriptDriver 3 100 10 "." 10
        { clock := 1000, feed := [[], [insertion]] } setupMutationObserver = .returned r ∧
      r.timeline.length = 2 ∧
      (1 ≤ r.timeline.length ∧ r.timeline.length ≤ 3 ∧
        ∃ first, r.timeline.head? = some first ∧ first.time_ms = 0 ∧
          first.type = "initial" ∧ first.mutations = []) :=
  ⟨by decide, _, rfl, rfl,
    (captureWithLogging_timeline_bounds scriptDriver 3 100 10 "."
      { clock := 1000, feed := [[], [insertion]] } setupMutationObserver (by decide)).1
      10 _ rfl⟩

/-- C8: in every session the capture loop returns, the entry at position `i` of the
timeline has file name `shot_<i>.png`, for every position `i`.  A session is returned
whenever the clock advances and no screenshot fails. -/
theorem captureWithLogging_files {ε : Type} (D : Driver ε) (maxShots : Nat)
    (timeoutMs debounceMs : Int) (outputDir : String) (e : ε) (w : Window) :
    (∀ fuel r,
      captureWithLoggingWith D maxShots timeoutMs debounceMs outputDir fuel e w
        = .returned r →
      ∀ (i : Nat) (entry : TimelineEntry), r.timeline[i]? = some entry →
        entry.file = "shot_" ++ toString i ++ ".png") ∧
    (D.Advances debounceMs → D.NeverFails →
      ∀ fuel : Nat, timeoutMs ≤ fuel * debounceMs →
        ∃ r, captureWithLoggingWith D maxShots timeoutMs debounceMs outputDir fuel e w
          = .returned r) := by
  refine ⟨?_, fun hadv hnf fuel hfuel =>
    captureWithLoggingWith_returns D maxShots timeoutMs debounceMs outputDir e w hadv hnf
      fuel hfuel⟩
  intro fuel r h i entry hi
  obtain ⟨s2, hrun, rfl⟩ :=
    captureWithLoggingWith_returned D maxShots timeoutMs debounceMs outputDir fuel e w r h
  have hok : TimelineOk s2 :=
    captureRun_returned D maxShots timeoutMs debounceMs outputDir (fun s => TimelineOk s)
      (fun e1 w1 => timelineOk_start e1 w1 _)
      (fun startTime s s1 hs _ hb => timelineOk_step D debounceMs outputDir startTime s s1 hs hb)
      fuel e w s2 hrun
  have hfile : (s2.results.timeline.map (fun entry => entry.file))[i]? = some entry.file := by
    rw [List.getElem?_map, hi]
    rfl
  rw [hok.files, List.getElem?_map] at hfile
  have hlt : i < s2.count := by
    by_contra hge
    rw [List.getElem?_eq_none (by simpa using hge)] at hfile
    simp at hfile
  rw [List.getElem?_range hlt] at hfile
  simp only [Option.map_some', Option.some.injEq] at hfile
  rw [← hfile]
  rfl

/-- C8 on a concrete run: the two entries of the session are `shot_0.png`, `shot_1.png`. -/
theorem captureWithLogging_files_witness :
    ∃ r, captureWithLoggingWith scriptDriver 3 100 10 "." 10
        { clock := 1000, feed := [[], [insertion]] } setupMutationObserver = .returned r ∧
      r.timeline.map (fun entry => entry.file) = ["shot_0.png", "shot_1.png"] ∧
      ∀ (i : Nat) (entry : TimelineEntry), r.timeline[i]? = some entry →
        entry.file = "shot_" ++ toString i ++ ".png" :=
  ⟨_, rfl, rfl,
    (captureWithLogging_files scriptDriver 3 100 10 "."
      { clock := 1000, feed := [[], [insertion]] } setupMutationObserver).1 10 _ rfl⟩

/-! ## The flag and the records -/

theorem childListBranch_text (m : MutationRecord) (d : Detail) :
    (childListBranch m d).text = d.text := by
  unfold childListBranch
  simp only []
  split_ifs <;> rfl

theorem childListBranch_flag (m : MutationRecord) (d : Detail)
    (ha : d.added = none) (hr : d.removed = none)
    (h : (childListBranch m d).added.isSome = true ∨
      (childListBranch m d).removed.isSome = true) :
    (childListBranch m d).significant = true := by
  unfold childListBranch at h ⊢
  simp only [] at h ⊢
  split_ifs at h ⊢ <;> simp_all

theorem attributesBranch_flag (m : MutationRecord) (d : Detail) :
    raisesFlag (attributesBranch m d) = raisesFlag d := by
  unfold attributesBranch
  simp only []
  split_ifs <;> rfl

/-- The observer raises the flag only for a record it marks significant. -/
theorem raisesFlag_significant (now : Int) (m : MutationRecord)
    (h : raisesFlag (observerDetail now m) = true) :
    (observerDetail now m).significant = true := by
  by_cases h1 : m.type = "childList"
  · rw [observerDetail_childList now m h1] at h ⊢
    simp only [raisesFlag, childListBranch_text, Bool.or_eq_true] at h
    rcases h with h | h
    · exact childListBranch_flag m _ rfl rfl h
    · simp [initialDetail, truthy] at h
  · by_cases h2 : m.type = "attributes"
    · rw [observerDetail_attributes now m h2, attributesBranch_flag] at h
      simp [initialDetail, raisesFlag, truthy] at h
    · by_cases h3 : m.type = "characterData"
      · rw [observerDetail_characterData now m h3]
        rfl
      · rw [observerDetail_other now m h1 h2 h3] at h
        simp [initialDetail, raisesFlag, truthy] at h

/-- The records of a list of arrivals, as the observer builds them. -/
theorem observe_mutations (arrivals : List Arrival) (w : Window) :
    (observe w arrivals).mutations =
      w.mutations ++ arrivals.map (fun a => observerDetail a.now a.record) := by
  induction arrivals generalizing w with
  | nil => simp [observe]
  | cons a rest ih =>
    have : observe w (a :: rest) = observe (observeOne w a) rest := rfl
    rw [this, ih]
    simp [observeOne]

theorem observe_mutationCount (arrivals : List Arrival) (w : Window) :
    (observe w arrivals).mutationCount = w.mutationCount + arrivals.length := by
  induction arrivals generalizing w with
  | nil => simp [observe]
  | cons a rest ih =>
    have : observe w (a :: rest) = observe (observeOne w a) rest := rfl
    rw [this, ih]
    simp [observeOne]
    omega

/-- Arrivals that are all not significant leave a clear flag clear. -/
theorem observe_flag_clear (arrivals : List Arrival) (w : Window)
    (hw : w.significantChange = false)
    (h : ∀ a ∈ arrivals, (observerDetail a.now a.record).significant = false) :
    (observe w arrivals).significantChange = false := by
  induction arrivals generalizing w with
  | nil => simpa [observe] using hw
  | cons a rest ih =>
    have : observe w (a :: rest) = observe (observeOne w a) rest := rfl
    rw [this]
    apply ih
    · have hns := h a (List.mem_cons_self a rest)
      have hnf : raisesFlag (observerDetail a.now a.record) = false := by
        cases hf : raisesFlag (observerDetail a.now a.record) with
        | false => rfl
        | true =>
          rw [raisesFlag_significant a.now a.record hf] at hns
          exact absurd hns (by decide)
      simp [observeOne, hnf, hw]
    · intro b hb
      exact h b (List.mem_cons_of_mem a hb)

theorem observe_append (w : Window) (first second : List Arrival) :
    observe (observe w first) second = observe w (first ++ second) := by
  simp [observe, List.foldl_append]

/-! ## The capture loop: the flag is the gate -/

/-- C9 (fails as stated): in the run fed by `raceFeed`, the flag is set at the second check
and the drain that follows returns no record at all, yet the second tick takes snapshot
`shot_2.png`, appends a timeline entry with `significantCount = 0` and increments the
count; the session the run returns has these three entries. -/
theorem snapshot_without_significant_record :
    ∃ s1 s2,
      loopBody scriptDriver DEBOUNCE_MS "." 1000
        (startState { clock := 1000, feed := raceFeed.tail } setupMutationObserver
          "./shot_0.png") = .ok s1 ∧
      (checkFlag scriptDriver DEBOUNCE_MS s1).1 = true ∧
      (getMutations scriptDriver (checkFlag scriptDriver DEBOUNCE_MS s1).2).1 = [] ∧
      loopBody scriptDriver DEBOUNCE_MS "." 1000 s1 = .ok s2 ∧
      s2.count = s1.count + 1 ∧
      s2.results.screenshots = s1.results.screenshots ++ ["./shot_2.png"] ∧
      s2.results.timeline = s1.results.timeline ++
        [{ file := "shot_2.png", time_ms := 200, type := "significant_change",
           significantCount := some 0, trivialCount := some 0, mutations := [] }] ∧
      captureWithLogging scriptDriver "." 20 { clock := 1000, feed := raceFeed }
        setupMutationObserver = .returned s2.results :=
  ⟨_, _, rfl, rfl, rfl, rfl, rfl, rfl, rfl, rfl⟩

/-- C9 as amended: the flag alone decides.  When the flag is clear at the check, the tick
ends in the state reached by the check: no drain, no snapshot, and `count`, `results` are
unchanged.  When the flag is set and the screenshot succeeds, the tick drains the buffer,
records snapshot `shot_<count>.png` with an entry for the drained batch and increments
`count`, also when the batch has no significant record: the entry then has
`significantCount = 0` and an empty mutation list. -/
theorem loopBody_gated_by_flag {ε : Type} (D : Driver ε) (debounceMs : Int)
    (outputDir : String) (startTime : Int) (s : LoopState ε) :
    ((checkFlag D debounceMs s).1 = false →
      loopBody D debounceMs outputDir startTime s = .ok (checkFlag D debounceMs s).2 ∧
      (checkFlag D debounceMs s).2.count = s.count ∧
      (checkFlag D debounceMs s).2.results = s.results ∧
      (checkFlag D debounceMs s).2.drains = s.drains) ∧
    ((checkFlag D debounceMs s).1 = true →
      ∀ shot,
        D.screenshot (outputDir ++ "/" ++ shotFile s.count)
          (getMutations D (checkFlag D debounceMs s).2).2.env = .ok shot →
        ∃ s1 entry,
          loopBody D debounceMs outputDir startTime s = .ok s1 ∧
          s1.count = s.count + 1 ∧
          s1.results.screenshots =
            s.results.screenshots ++ [outputDir ++ "/" ++ shotFile s.count] ∧
          s1.results.timeline = s.results.timeline ++ [entry] ∧
          s1.drains = s.drains ++ [(getMutations D (checkFlag D debounceMs s).2).1] ∧
          entry.file = shotFile s.count ∧
          entry.significantCount =
            some (significantOf (getMutations D (checkFlag D debounceMs s).2).1).length ∧
          entry.mutations = significantOf (getMutations D (checkFlag D debounceMs s).2).1 ∧
          ((∀ d ∈ (getMutations D (checkFlag D debounceMs s).2).1, d.significant = false) →
            entry.significantCount = some 0 ∧ entry.mutations = [])) := by
  constructor
  · intro hf
    exact ⟨loopBody_of_flag_clear D debounceMs outputDir startTime s hf, rfl, rfl, rfl⟩
  · intro hf shot hshot
    obtain ⟨s1, hs1⟩ :=
      captureBlock_of_screenshot_ok D outputDir startTime (checkFlag D debounceMs s).2 shot
        hshot
    have hb := loopBody_of_flag_set D debounceMs outputDir startTime s hf
    obtain ⟨hc, hr, hd⟩ := captureBlock_ok D outputDir startTime _ s1 hs1
    refine ⟨s1, changeEntry s.count (D.now (checkFlag D debounceMs s).2.env - startTime)
      (getMutations D (checkFlag D debounceMs s).2).1, ?_, hc, ?_, ?_, hd, rfl, rfl, rfl, ?_⟩
    · rw [hb, hs1]
    · rw [hr]; rfl
    · rw [hr]; rfl
    · intro hnone
      have hnil : significantOf (getMutations D (checkFlag D debounceMs s).2).1 = [] := by
        unfold significantOf
        rw [List.filter_eq_nil_iff]
        intro d hd
        simp [hnone d hd]
      simp [changeEntry, hnil]

/-- C9 as amended, on two concrete ticks.  In the first tick of the run fed by
`trivialFeed` the flag is clear and the tick changes neither `count` nor `results`; in the
first tick of the run fed by `raceFeed` the flag is set and the tick records `shot_1.png`
with the two insertions drained. -/
theorem loopBody_gated_by_flag_witness :
    (loopBody scriptDriver DEBOUNCE_MS "." 1000
        (startState { clock := 1000, feed := trivialFeed.tail } setupMutationObserver
          "./shot_0.png") =
      .ok (checkFlag scriptDriver DEBOUNCE_MS
        (startState { clock := 1000, feed := trivialFeed.tail } setupMutationObserver
          "./shot_0.png")).2) ∧
    ∃ s1 entry,
      loopBody scriptDriver DEBOUNCE_MS "." 1000
        (startState { clock := 1000, feed := raceFeed.tail } setupMutationObserver
          "./shot_0.png") = .ok s1 ∧
      s1.count = 2 ∧
      s1.results.timeline = [initialEntry, entry] ∧
      entry.file = "shot_1.png" ∧ entry.significantCount = some 2 :=
  ⟨((loopBody_gated_by_flag scriptDriver DEBOUNCE_MS "." 1000
      (startState { clock := 1000, feed := trivialFeed.tail } setupMutationObserver
        "./shot_0.png")).1 rfl).1,
   match (loopBody_gated_by_flag scriptDriver DEBOUNCE_MS "." 1000
      (startState { clock := 1000, feed := raceFeed.tail } setupMutationObserver
        "./shot_0.png")).2 rfl _ rfl with
   | ⟨s1, entry, hb, hc, _, ht, _, hfile, hsig, _, _⟩ =>
     ⟨s1, entry, hb, hc, ht, by rw [hfile]; rfl, by rw [hsig]; rfl⟩⟩

/-! ## The capture loop: a tick with trivial mutations only -/

/-- C10 (fails as stated): in the run fed by `trivialFeed` the only mutation of the first
debounce window is a trivial one (a style change to `cursor: pointer`); the tick leaves
the count at 1 but `totalMutations` stays 0 although one record was buffered, and the
session the run returns still has `totalMutations = 0`. -/
theorem trivial_tick_not_counted :
    (observerDetail cursorChange.now cursorChange.record).significant = false ∧
    ∃ s1 r,
      loopBody scriptDriver DEBOUNCE_MS "." 1000
        (startState { clock := 1000, feed := trivialFeed.tail } setupMutationObserver
          "./shot_0.png") = .ok s1 ∧
      s1.count = 1 ∧ s1.window.mutations.length = 1 ∧ s1.window.mutationCount = 1 ∧
      s1.results.totalMutations = 0 ∧
      captureWithLogging scriptDriver "." 20 { clock := 1000, feed := trivialFeed }
        setupMutationObserver = .returned r ∧
      r.totalMutations = 0 ∧ r.timeline.length = 1 :=
  ⟨by decide, _, _, rfl, rfl, rfl, rfl, rfl, rfl, rfl, rfl⟩

/-- C10 as amended: when the flag is clear at the start of a tick and every mutation that
reaches the observer before the flag is read is not significant, the tick takes no
snapshot and leaves `count` and `results` (so `totalMutations` too) unchanged; the records
of these mutations are appended to the buffer of the page, where they wait for a later
drain, and the flag stays clear. -/
theorem trivial_tick {ε : Type} (D : Driver ε) (debounceMs : Int) (outputDir : String)
    (startTime : Int) (s : LoopState ε)
    (hflag : s.window.significantChange = false)
    (htrivial : ∀ a ∈ (D.waitForTimeout debounceMs s.env).2 ++
        (D.evaluate (D.waitForTimeout debounceMs s.env).1).2,
      (observerDetail a.now a.record).significant = false) :
    ∃ s1,
      loopBody D debounceMs outputDir startTime s = .ok s1 ∧
      s1.count = s.count ∧ s1.results = s.results ∧ s1.drains = s.drains ∧
      s1.window.mutations = s.window.mutations ++
        ((D.waitForTimeout debounceMs s.env).2 ++
          (D.evaluate (D.waitForTimeout debounceMs s.env).1).2).map
          (fun a => observerDetail a.now a.record) ∧
      s1.window.mutationCount = s.window.mutationCount +
        ((D.waitForTimeout debounceMs s.env).2 ++
          (D.evaluate (D.waitForTimeout debounceMs s.env).1).2).length ∧
      s1.window.significantChange = false := by
  have hclear := observe_flag_clear _ s.window hflag htrivial
  have hf : (checkFlag D debounceMs s).1 = false := by
    show (observe (observe s.window _) _).significantChange = false
    rw [observe_append]
    exact hclear
  refine ⟨_, loopBody_of_flag_clear D debounceMs outputDir startTime s hf, rfl, rfl, rfl,
    ?_, ?_, rfl⟩
  · show (observe (observe s.window _) _).mutations = _
    rw [observe_append, observe_mutations]
  · show (observe (observe s.window _) _).mutationCount = _
    rw [observe_append, observe_mutationCount]

/-- C10 as amended, on the first tick of the run fed by `trivialFeed`. -/
theorem trivial_tick_witness :
    ∃ s1,
      loopBody scriptDriver DEBOUNCE_MS "." 1000
        (startState { clock := 1000, feed := trivialFeed.tail } setupMutationObserver
          "./shot_0.png") = .ok s1 ∧
      s1.count = 1 ∧ s1.results.totalMutations = 0 ∧ s1.window.mutations.length = 1 :=
  let s0 : LoopState Script :=
    startState { clock := 1000, feed := trivialFeed.tail } setupMutationObserver "./shot_0.png"
  match trivial_tick scriptDriver DEBOUNCE_MS "." 1000 s0 rfl (by decide) with
  | ⟨s1, hb, hc, hr, _, hm, _, _⟩ =>
    ⟨s1, hb, hc, by rw [hr]; rfl, by rw [hm]; rfl⟩

/-! ## The capture loop: entries, counters and drained batches -/

/-- What one execution of the loop body does to `results` and to the history of drains:
nothing when the flag was clear; otherwise one batch is drained and recorded. -/
theorem loopBody_ok_drains {ε : Type} (D : Driver ε) (debounceMs : Int) (outputDir : String)
    (startTime : Int) (s s1 : LoopState ε)
    (h : loopBody D debounceMs outputDir startTime s = .ok s1) :
    (s1.results = s.results ∧ s1.drains = s.drains ∧ s1.count = s.count) ∨
    ∃ batch elapsed,
      s1.drains = s.drains ++ [batch] ∧ s1.count = s.count + 1 ∧
      s1.results = record s.results (outputDir ++ "/" ++ shotFile s.count)
        (changeEntry s.count elapsed batch) batch := by
  cases hf : (checkFlag D debounceMs s).1 with
  | false =>
    left
    rw [loopBody_of_flag_clear D debounceMs outputDir startTime s hf] at h
    cases h
    exact ⟨rfl, rfl, rfl⟩
  | true =>
    right
    rw [loopBody_of_flag_set D debounceMs outputDir startTime s hf] at h
    obtain ⟨hc, hr, hd⟩ := captureBlock_ok D outputDir startTime _ s1 h
    exact ⟨_, _, hd, hc, hr⟩

theorem entries_match_drains_step {ε : Type} (D : Driver ε) (debounceMs : Int)
    (outputDir : String) (startTime : Int) (s s1 : LoopState ε)
    (hs : s.results.timeline.map (fun entry => entry.mutations) =
      [] :: s.drains.map (fun batch => batch.filter (fun d => d.significant)))
    (h : loopBody D debounceMs outputDir startTime s = .ok s1) :
    s1.results.timeline.map (fun entry => entry.mutations) =
      [] :: s1.drains.map (fun batch => batch.filter (fun d => d.significant)) := by
  rcases loopBody_ok_drains D debounceMs outputDir startTime s s1 h with
    ⟨hr, hd, _⟩ | ⟨batch, elapsed, hd, _, hr⟩
  · rw [hr, hd]; exact hs
  · rw [hr, hd]
    simp [record, changeEntry, significantOf, hs]

theorem counters_match_drains_step {ε : Type} (D : Driver ε) (debounceMs : Int)
    (outputDir : String) (startTime : Int) (s s1 : LoopState ε)
    (hs : s.results.totalMutations = (s.drains.map List.length).sum ∧
      s.results.significantMutations =
        (s.drains.map (fun batch => (batch.filter (fun d => d.significant)).length)).sum)
    (h : loopBody D debounceMs outputDir startTime s = .ok s1) :
    s1.results.totalMutations = (s1.drains.map List.length).sum ∧
      s1.results.significantMutations =
        (s1.drains.map (fun batch => (batch.filter (fun d => d.significant)).length)).sum
    := by
  rcases loopBody_ok_drains D debounceMs outputDir startTime s s1 h with
    ⟨hr, hd, _⟩ | ⟨batch, elapsed, hd, _, hr⟩
  · rw [hr, hd]; exact hs
  · rw [hr, hd]
    simp [record, significantOf, hs.1, hs.2]

/-- C12: in the final state of every run that returns, the mutation lists of the timeline
entries are, in order, the empty list of the initial entry followed by the significant
records of each drained batch, filtered in the order of the drain; so every record in a
timeline entry is significant and no significant record of a batch is left out.  A run
returns whenever the clock advances and no screenshot fails. -/
theorem timeline_mutations_of_drains {ε : Type} (D : Driver ε) (maxShots : Nat)
    (timeoutMs debounceMs : Int) (outputDir : String) (e : ε) (w : Window) :
    (∀ fuel s2,
      captureRun D maxShots timeoutMs debounceMs outputDir fuel e w = .returned s2 →
      s2.results.timeline.map (fun entry => entry.mutations) =
        [] :: s2.drains.map (fun batch => batch.filter (fun d => d.significant)) ∧
      ∀ entry ∈ s2.results.timeline, ∀ d ∈ entry.mutations, d.significant = true) ∧
    (D.Advances debounceMs → D.NeverFails →
      ∀ fuel : Nat, timeoutMs ≤ fuel * debounceMs →
        ∃ s2, captureRun D maxShots timeoutMs debounceMs outputDir fuel e w
          = .returned s2) := by
  refine ⟨?_, fun hadv hnf fuel hfuel =>
    captureRun_returns D maxShots timeoutMs debounceMs outputDir e w hadv hnf fuel hfuel⟩
  intro fuel s2 hrun
  have hinv : s2.results.timeline.map (fun entry => entry.mutations) =
      [] :: s2.drains.map (fun batch => batch.filter (fun d => d.significant)) :=
    captureRun_returned D maxShots timeoutMs debounceMs outputDir
      (fun s => s.results.timeline.map (fun entry => entry.mutations) =
        [] :: s.drains.map (fun batch => batch.filter (fun d => d.significant)))
      (fun _ _ => rfl)
      (fun startTime s s1 hs _ hb =>
        entries_match_drains_step D debounceMs outputDir startTime s s1 hs hb)
      fuel e w s2 hrun
  refine ⟨hinv, ?_⟩
  intro entry hentry d hd
  have hmem : entry.mutations ∈ s2.results.timeline.map (fun entry => entry.mutations) :=
    List.mem_map_of_mem _ hentry
  rw [hinv] at hmem
  rcases List.mem_cons.mp hmem with hnil | hbatch
  · rw [hnil] at hd
    simp at hd
  · obtain ⟨batch, _, hb⟩ := List.mem_map.mp hbatch
    rw [← hb] at hd
    simpa using (List.mem_filter.mp hd).2

/-- C14: in the final state of every run that returns, `totalMutations` is the total
number of records in the batches drained during the run and `significantMutations` is the
number of those records with `significant = true`; every record counts, whatever its
target.  A run returns whenever the clock advances and no screenshot fails. -/
theorem counters_of_drains {ε : Type} (D : Driver ε) (maxShots : Nat)
    (timeoutMs debounceMs : Int) (outputDir : String) (e : ε) (w : Window) :
    (∀ fuel s2,
      captureRun D maxShots timeoutMs debounceMs outputDir fuel e w = .returned s2 →
      s2.results.totalMutations = (s2.drains.map List.length).sum ∧
      s2.results.significantMutations =
        (s2.drains.map
          (fun batch => (batch.filter (fun d => d.significant)).length)).sum) ∧
    (D.Advances debounceMs → D.NeverFails →
      ∀ fuel : Nat, timeoutMs ≤ fuel * debounceMs →
        ∃ s2, captureRun D maxShots timeoutMs debounceMs outputDir fuel e w
          = .returned s2) := by
  refine ⟨?_, fun hadv hnf fuel hfuel =>
    captureRun_returns D maxShots timeoutMs debounceMs outputDir e w hadv hnf fuel hfuel⟩
  intro fuel s2 hrun
  exact captureRun_returned D maxShots timeoutMs debounceMs outputDir
    (fun s => s.results.totalMutations = (s.drains.map List.length).sum ∧
      s.results.significantMutations =
        (s.drains.map (fun batch => (batch.filter (fun d => d.significant)).length)).sum)
    (fun _ _ => ⟨rfl, rfl⟩)
    (fun startTime s s1 hs _ hb =>
      counters_match_drains_step D debounceMs outputDir startTime s s1 hs hb)
    fuel e w s2 hrun

/-! ## When the flag is raised -/

theorem takeUnits_eq_nil (n : Nat) (cs : List Char) (h : takeUnits (n + 2) cs = []) :
    cs = [] := by
  cases cs with
  | nil => rfl
  | cons c rest =>
    simp only [takeUnits] at h
    split_ifs at h

theorem slice0_eq_empty_iff (t : String) : slice0 t 50 = "" ↔ t = "" := by
  constructor
  · intro h
    have h1 : (slice0 t 50).data = [] := by rw [h]
    exact String.ext (takeUnits_eq_nil 48 t.data h1)
  · intro h
    rw [h]
    rfl

theorem truthy_slice0 (o : Option String) :
    truthy (o.map (fun t => slice0 t 50)) = truthy o := by
  cases o with
  | none => rfl
  | some t =>
    by_cases ht : t = ""
    · have h1 : (slice0 t 50 != "") = false := by
        simp [(slice0_eq_empty_iff t).mpr ht]
      have h2 : (t != "") = false := by simp [ht]
      simp only [Option.map_some', truthy, h1, h2]
    · have hs : ¬ slice0 t 50 = "" := fun h => ht ((slice0_eq_empty_iff t).mp h)
      have h1 : (slice0 t 50 != "") = true := by simp [hs]
      have h2 : (t != "") = true := by simp [ht]
      simp only [Option.map_some', truthy, h1, h2]

theorem childListBranch_raisesFlag (m : MutationRecord) (d : Detail)
    (ha : d.added = none) (hr : d.removed = none) (ht : d.text = none) :
    raisesFlag (childListBranch m d) = true ↔
      (∃ n ∈ m.addedNodes, n.nodeType = 1) ∨ (∃ n ∈ m.removedNodes, n.nodeType = 1) := by
  have hea := elementTags_nonempty_iff m.addedNodes
  have her := elementTags_nonempty_iff m.removedNodes
  have pa := exists_element_length_pos m.addedNodes
  have pr := exists_element_length_pos m.removedNodes
  by_cases ea : ∃ n ∈ m.addedNodes, n.nodeType = 1
  · by_cases er : ∃ n ∈ m.removedNodes, n.nodeType = 1
    · simp only [childListBranch, pa ea, pr er, hea.mpr ea, her.mpr er, if_true, ea, er,
        or_self]
      simp [raisesFlag]
    · have hr2 : ¬ ((elementTags m.removedNodes).length != 0) = true :=
        fun h => er (her.mp h)
      simp only [childListBranch, pa ea, hea.mpr ea, hr2, if_true, if_false, ea, er,
        or_false, ite_self]
      simp [raisesFlag]
  · have ha2 : ¬ ((elementTags m.addedNodes).length != 0) = true := fun h => ea (hea.mp h)
    by_cases er : ∃ n ∈ m.removedNodes, n.nodeType = 1
    · simp only [childListBranch, pr er, her.mpr er, ha2, if_true, if_false, ea, er,
        or_true, ite_self]
      simp [raisesFlag]
    · have hr2 : ¬ ((elementTags m.removedNodes).length != 0) = true :=
        fun h => er (her.mp h)
      simp only [childListBranch, ha2, hr2, if_false, ea, er, or_self, ite_self]
      simp [raisesFlag, ha, hr, ht, truthy]

/-- The flag is raised for a mutation exactly when it is a `childList` mutation with an
added or removed element, or a `characterData` mutation whose target has a non-empty
text content. -/
theorem raisesFlag_iff (now : Int) (m : MutationRecord) :
    raisesFlag (observerDetail now m) = true ↔
      (m.type = "childList" ∧
        ((∃ n ∈ m.addedNodes, n.nodeType = 1) ∨ (∃ n ∈ m.removedNodes, n.nodeType = 1))) ∨
      (m.type = "characterData" ∧ truthy m.target.textContent = true) := by
  by_cases h1 : m.type = "childList"
  · have hne : ¬ (m.type = "characterData") := by rw [h1]; decide
    rw [observerDetail_childList now m h1, childListBranch_raisesFlag m _ rfl rfl rfl]
    simp [h1]
  · by_cases h2 : m.type = "attributes"
    · have hne : ¬ (m.type = "characterData") := by rw [h2]; decide
      rw [observerDetail_attributes now m h2, attributesBranch_flag]
      simp [initialDetail, raisesFlag, truthy, h1, hne]
    · by_cases h3 : m.type = "characterData"
      · rw [observerDetail_characterData now m h3]
        have : raisesFlag (characterDataBranch m (initialDetail now m)) =
            truthy (m.target.textContent.map (fun t => slice0 t 50)) := by
          simp [raisesFlag, characterDataBranch, initialDetail]
        rw [this, truthy_slice0]
        simp [h1, h3]
      · rw [observerDetail_other now m h1 h2 h3]
        simp [initialDetail, raisesFlag, truthy, h1, h3]

theorem whileLoop_of_guard_false {ε : Type} (D : Driver ε) (maxShots : Nat)
    (timeoutMs debounceMs : Int) (outputDir : String) (startTime : Int) (fuel : Nat)
    (s : LoopState ε) (h : loopGuard D maxShots timeoutMs startTime s = false) :
    whileLoop D maxShots timeoutMs debounceMs outputDir startTime fuel s = .returned s := by
  cases fuel <;> simp [whileLoop, h]

/-! ## The end-to-end scenario -/

theorem shotFile_one : shotFile 1 = "shot_1.png" := by decide

theorem shotFile_two : shotFile 2 = "shot_2.png" := by decide

/-- The run of the scenario for three arrivals of which only the kind of record is known:
the first and third raise the flag and are significant, the second does neither. -/
theorem scenario_run (first second third : Arrival) (clock : Int) (outputDir : String)
    (k : Nat)
    (f1 : raisesFlag (observerDetail first.now first.record) = true)
    (s1 : (observerDetail first.now first.record).significant = true)
    (f2 : raisesFlag (observerDetail second.now second.record) = false)
    (s2 : (observerDetail second.now second.record).significant = false)
    (f3 : raisesFlag (observerDetail third.now third.record) = true)
    (s3 : (observerDetail third.now third.record).significant = true) :
    captureWithLoggingWith scriptDriver 3 100 10 outputDir (k + 3)
      { clock := clock, feed := scenarioFeed first second third } setupMutationObserver =
    .returned
      { screenshots := [outputDir ++ "/" ++ "shot_0.png", outputDir ++ "/" ++ "shot_1.png",
          outputDir ++ "/" ++ "shot_2.png"]
        totalMutations := 3
        significantMutations := 2
        timeline :=
          [initialEntry,
           { file := "shot_1.png", time_ms := 10, type := "significant_change",
             significantCount := some 1, trivialCount := some 0,
             mutations := [observerDetail first.now first.record] },
           { file := "shot_2.png", time_ms := 30, type := "significant_change",
             significantCount := some 1, trivialCount := some 1,
             mutations := [observerDetail third.now third.record] }] } := by
  generalize hd1 : observerDetail first.now first.record = d1 at f1 s1 ⊢
  generalize hd2 : observerDetail second.now second.record = d2 at f2 s2 ⊢
  generalize hd3 : observerDetail third.now third.record = d3 at f3 s3 ⊢
  have hlt : clock + 10 + 10 - clock < 100 := by omega
  have h30 : clock + 10 + 10 + 10 - clock = 30 := by omega
  simp [captureWithLoggingWith, captureRun, scenarioFeed, scriptDriver, startState,
    whileLoop, loopGuard, loopBody, checkFlag, captureBlock, getMutations, observe,
    observeOne, readAndClearFlag, takeMutations, setupMutationObserver, record, changeEntry,
    significantOf, hd1, hd2, hd3, f1, f2, f3, s1, s2, s3, hlt, h30, shotFile_one,
    shotFile_two]
  rw [whileLoop_of_guard_false _ _ _ _ _ _ _ _ (by simp [loopGuard])]
  simp [Outcome.results]

/-- C11: a run with snapshot limit 3, debounce 10 ms and duration 100 ms, on a page with a
fresh observer, fed an element insertion during tick 1, a style change whose recorded
value contains `cursor` during tick 2 and a text change with non-empty text during tick 3,
returns a session of exactly three entries (the initial one, one with the insertion, one
with the text change), with `totalMutations = 3` and `significantMutations = 2`. -/
theorem end_to_end_scenario (first second third : Arrival) (clock : Int)
    (outputDir : String) (fuel : Nat) (hfuel : 3 ≤ fuel)
    (h1 : first.record.type = "childList")
    (he : ∃ n ∈ first.record.addedNodes, n.nodeType = 1)
    (h2 : second.record.type = "attributes")
    (hs : second.record.attributeName = some "style")
    (hc : includes ((observerDetail second.now second.record).newValue.getD "") "cursor"
      = true)
    (h3 : third.record.type = "characterData")
    (ht : truthy third.record.target.textContent = true) :
    captureWithLoggingWith scriptDriver 3 100 10 outputDir fuel
      { clock := clock, feed := scenarioFeed first second third } setupMutationObserver =
    .returned
      { screenshots := [outputDir ++ "/" ++ "shot_0.png", outputDir ++ "/" ++ "shot_1.png",
          outputDir ++ "/" ++ "shot_2.png"]
        totalMutations := 3
        significantMutations := 2
        timeline :=
          [{ file := "shot_0.png", time_ms := 0, type := "initial",
             significantCount := none, trivialCount := none, mutations := [] },
           { file := "shot_1.png", time_ms := 10, type := "significant_change",
             significantCount := some 1, trivialCount := some 0,
             mutations := [observerDetail first.now first.record] },
           { file := "shot_2.png", time_ms := 30, type := "significant_change",
             significantCount := some 1, trivialCount := some 1,
             mutations := [observerDetail third.now third.record] }] } := by
  obtain ⟨k, rfl⟩ : ∃ k, fuel = k + 3 := ⟨fuel - 3, by omega⟩
  have f1 : raisesFlag (observerDetail first.now first.record) = true :=
    (raisesFlag_iff first.now first.record).mpr (Or.inl ⟨h1, Or.inl he⟩)
  have f3 : raisesFlag (observerDetail third.now third.record) = true :=
    (raisesFlag_iff third.now third.record).mpr (Or.inr ⟨h3, ht⟩)
  have s2 : (observerDetail second.now second.record).significant = false := by
    rw [observerDetail_attributes _ _ h2] at hc ⊢
    rw [attributesBranch_style _ _ hs rfl, hc]
    simp
  have f2 : raisesFlag (observerDetail second.now second.record) = false := by
    cases hf : raisesFlag (observerDetail second.now second.record) with
    | false => rfl
    | true =>
      rw [raisesFlag_significant _ _ hf] at s2
      exact absurd s2 (by decide)
  exact scenario_run first second third clock outputDir k f1
    (raisesFlag_significant _ _ f1) f2 s2 f3 (raisesFlag_significant _ _ f3)

/-- C11 on a concrete feed: a `div` inserted in `body`, the style of a `div` set to
`cursor: pointer`, the text of a text node changed to `hello`. -/
theorem end_to_end_scenario_witness :
    (captureWithLoggingWith scriptDriver 3 100 10 "." 10
      { clock := 1000, feed := scenarioFeed insertion cursorChange textChange }
      setupMutationObserver =
    .returned
      { screenshots := ["." ++ "/" ++ "shot_0.png", "." ++ "/" ++ "shot_1.png",
          "." ++ "/" ++ "shot_2.png"]
        totalMutations := 3
        significantMutations := 2
        timeline :=
          [{ file := "shot_0.png", time_ms := 0, type := "initial",
             significantCount := none, trivialCount := none, mutations := [] },
           { file := "shot_1.png", time_ms := 10, type := "significant_change",
             significantCount := some 1, trivialCount := some 0,
             mutations := [observerDetail insertion.now insertion.record] },
           { file := "shot_2.png", time_ms := 30, type := "significant_change",
             significantCount := some 1, trivialCount := some 1,
             mutations := [observerDetail textChange.now textChange.record] }] }) :=
  end_to_end_scenario insertion cursorChange textChange 1000 "." 10 (by decide) rfl
    ⟨elementNode "DIV", by decide, by decide⟩ rfl rfl (by decide) rfl (by decide)

/-! ## The capture loop: a failing screenshot -/

theorem captureBlock_of_screenshot_error {ε : Type} (D : Driver ε) (outputDir : String)
    (startTime : Int) (s : LoopState ε) (err : String)
    (h : D.screenshot (outputDir ++ "/" ++ shotFile s.count) (getMutations D s).2.env
      = .error err) :
    captureBlock D outputDir startTime s = .error err := by
  unfold captureBlock
  simp only [h]

/-- C13 (fails as stated): in this run the initial screenshot and `shot_1.png` succeed,
so that two snapshots and one mutation are accumulated, and the screenshot of the second
tick fails.  The run does not return a session: it ends by throwing `CaptureError`. -/
theorem failed_screenshot_loses_session :
    ∃ s1,
      loopBody flakyDriver DEBOUNCE_MS "." 1000
        (startState
          { script := { clock := 1000, feed := [[insertion], [], [], [], [insertion]] },
            shotsLeft := 1 }
          setupMutationObserver "./shot_0.png") = .ok s1 ∧
      s1.results.screenshots = ["./shot_0.png", "./shot_1.png"] ∧
      s1.results.totalMutations = 1 ∧
      loopBody flakyDriver DEBOUNCE_MS "." 1000 s1 = .error "CaptureError" ∧
      captureWithLogging flakyDriver "." 20
        { script := { clock := 1000, feed := [[], [insertion], [], [], [], [insertion]] },
          shotsLeft := 2 }
        setupMutationObserver = .threw "CaptureError" :=
  ⟨_, rfl, rfl, rfl, rfl, rfl⟩

/-- C13 as amended: when the screenshot call of a tick fails, whatever `results` holds at
that point, the loop ends at that tick by throwing the error of the call, and what
`captureWithLogging` yields is that error, not a session. -/
theorem failed_screenshot_throws {ε : Type} (D : Driver ε) (maxShots : Nat)
    (timeoutMs debounceMs : Int) (outputDir : String) (startTime : Int) (s : LoopState ε)
    (err : String) (fuel : Nat)
    (hguard : loopGuard D maxShots timeoutMs startTime s = true)
    (hflag : (checkFlag D debounceMs s).1 = true)
    (hfail : D.screenshot (outputDir ++ "/" ++ shotFile s.count)
      (getMutations D (checkFlag D debounceMs s).2).2.env = .error err) :
    whileLoop D maxShots timeoutMs debounceMs outputDir startTime (fuel + 1) s
      = .threw err ∧
    (whileLoop D maxShots timeoutMs debounceMs outputDir startTime (fuel + 1) s).results
      = .threw err := by
  have hbody : loopBody D debounceMs outputDir startTime s = .error err := by
    rw [loopBody_of_flag_set D debounceMs outputDir startTime s hflag]
    exact captureBlock_of_screenshot_error D outputDir startTime _ err hfail
  have hloop : whileLoop D maxShots timeoutMs debounceMs outputDir startTime (fuel + 1) s
      = .threw err := by
    simp [whileLoop, hguard, hbody]
  exact ⟨hloop, by rw [hloop]; rfl⟩

/-- C13 as amended, on the first tick of a run whose browser fails every screenshot
after the initial one: an insertion raises the flag and the loop throws. -/
theorem failed_screenshot_throws_witness :
    whileLoop flakyDriver MAX_SCREENSHOTS TIMEOUT_MS DEBOUNCE_MS "." 1000 20
      (startState { script := { clock := 1000, feed := [[insertion]] }, shotsLeft := 0 }
        setupMutationObserver "./shot_0.png") = .threw "CaptureError" :=
  (failed_screenshot_throws flakyDriver MAX_SCREENSHOTS TIMEOUT_MS DEBOUNCE_MS "." 1000
    (startState { script := { clock := 1000, feed := [[insertion]] }, shotsLeft := 0 }
      setupMutationObserver "./shot_0.png") "CaptureError" 19 rfl rfl rfl).1

/-! ## The capture loop: elapsed times and the duration bound -/

/-- A run that returns went through the initial screenshot and then the loop. -/
theorem captureRun_returned_from {ε : Type} (D : Driver ε) (maxShots : Nat)
    (timeoutMs debounceMs : Int) (outputDir : String) (fuel : Nat) (e : ε) (w : Window)
    (s2 : LoopState ε)
    (h : captureRun D maxShots timeoutMs debounceMs outputDir fuel e w = .returned s2) :
    ∃ shot, D.screenshot (outputDir ++ "/" ++ "shot_0.png") e = .ok shot ∧
      whileLoop D maxShots timeoutMs debounceMs outputDir (D.now shot.1) fuel
        (startState shot.1 (observe w shot.2) (outputDir ++ "/" ++ "shot_0.png"))
        = .returned s2 := by
  unfold captureRun at h
  simp only at h
  split at h
  · exact absurd h (by simp)
  · rename_i shot hshot
    exact ⟨shot, hshot, h⟩

theorem time_bound_step {ε : Type} (D : Driver ε) (maxShots : Nat)
    (timeoutMs debounceMs : Int) (outputDir : String) (startTime bound : Int)
    (hb : D.TickWithin debounceMs bound) (s s1 : LoopState ε)
    (hs : ∀ entry ∈ s.results.timeline,
      entry ≠ initialEntry → entry.time_ms < timeoutMs + bound)
    (hg : loopGuard D maxShots timeoutMs startTime s = true)
    (h : loopBody D debounceMs outputDir startTime s = .ok s1) :
    ∀ entry ∈ s1.results.timeline,
      entry ≠ initialEntry → entry.time_ms < timeoutMs + bound := by
  rcases loopBody_ok D debounceMs outputDir startTime s s1 h with ⟨_, rfl⟩ | ⟨_, _, hr⟩
  · exact hs
  · intro entry hentry hne
    rw [hr] at hentry
    simp only [record, List.mem_append, List.mem_singleton] at hentry
    rcases hentry with hold | hnew
    · exact hs entry hold hne
    · rw [hnew]
      simp only [loopGuard, Bool.and_eq_true, decide_eq_true_eq] at hg
      have htick := hb s.env
      show D.now (checkFlag D debounceMs s).2.env - startTime < timeoutMs + bound
      have henv : (checkFlag D debounceMs s).2.env =
          (D.evaluate (D.waitForTimeout debounceMs s.env).1).1 := rfl
      rw [henv]
      omega

/-- C15 (fails as stated): with waits of exactly 100 ms and nothing else taking time, an
insertion that arrives during the wait of tick 20 is captured in an entry with
`time_ms = 2000`, which is not below `TIMEOUT_MS`. -/
theorem snapshot_at_duration_bound :
    ∃ r entry,
      captureWithLogging scriptDriver "." 20 { clock := 1000, feed := lateFeed }
        setupMutationObserver = .returned r ∧
      r.timeline = [initialEntry, entry] ∧
      entry.file = "shot_1.png" ∧ entry.time_ms = 2000 ∧
      ¬ entry.time_ms < TIMEOUT_MS :=
  ⟨_, _, rfl, rfl, rfl, rfl, by decide⟩

/-- C15 as amended: the `while` condition lets a tick start only while the elapsed time
is below the duration bound, and the elapsed time of a snapshot is read after the
debounce wait and the read of the flag of its tick.  So when these two calls take at most
`bound` ms together, every entry other than the initial one of every returned session has
`time_ms < timeoutMs + bound`.  A session is returned whenever the clock advances and no
screenshot fails. -/
theorem entry_time_below_bound {ε : Type} (D : Driver ε) (maxShots : Nat)
    (timeoutMs debounceMs : Int) (outputDir : String) (e : ε) (w : Window) (bound : Int)
    (hb : D.TickWithin debounceMs bound) :
    (∀ fuel r,
      captureWithLoggingWith D maxShots timeoutMs debounceMs outputDir fuel e w
        = .returned r →
      ∀ entry ∈ r.timeline, entry ≠ initialEntry → entry.time_ms < timeoutMs + bound) ∧
    (D.Advances debounceMs → D.NeverFails →
      ∀ fuel : Nat, timeoutMs ≤ fuel * debounceMs →
        ∃ r, captureWithLoggingWith D maxShots timeoutMs debounceMs outputDir fuel e w
          = .returned r) := by
  refine ⟨?_, fun hadv hnf fuel hfuel =>
    captureWithLoggingWith_returns D maxShots timeoutMs debounceMs outputDir e w hadv hnf
      fuel hfuel⟩
  intro fuel r h
  obtain ⟨s2, hrun, rfl⟩ :=
    captureWithLoggingWith_returned D maxShots timeoutMs debounceMs outputDir fuel e w r h
  refine captureRun_returned D maxShots timeoutMs debounceMs outputDir
    (fun s => ∀ entry ∈ s.results.timeline,
      entry ≠ initialEntry → entry.time_ms < timeoutMs + bound) ?_ ?_ fuel e w s2 hrun
  · intro e1 w1 entry hentry hne
    simp only [startState, List.mem_singleton] at hentry
    exact absurd hentry hne
  · intro startTime s s1 hs hg hbody
    exact time_bound_step D maxShots timeoutMs debounceMs outputDir startTime bound hb s s1
      hs hg hbody

theorem scriptDriver_tickWithin (debounceMs : Int) :
    scriptDriver.TickWithin debounceMs debounceMs :=
  fun _ => le_refl _

/-- C15 as amended, on the run fed by `lateFeed`: the scripted browser spends exactly
`DEBOUNCE_MS` in the wait and the read of the flag, and the entry of `shot_1.png` has
`time_ms = 2000 < 2000 + 100`. -/
theorem entry_time_below_bound_witness :
    ∃ r, captureWithLogging scriptDriver "." 20 { clock := 1000, feed := lateFeed }
        setupMutationObserver = .returned r ∧
      ∀ entry ∈ r.timeline, entry ≠ initialEntry → entry.time_ms < 2000 + 100 :=
  ⟨_, rfl,
    (entry_time_below_bound scriptDriver MAX_SCREENSHOTS TIMEOUT_MS DEBOUNCE_MS "."
      { clock := 1000, feed := lateFeed } setupMutationObserver DEBOUNCE_MS
      (scriptDriver_tickWithin DEBOUNCE_MS)).1 20 _ rfl⟩

/-! ## The capture loop: the number of iterations -/

/-- The loop ends (it returns or throws) within `fuel` executions of its body when `fuel`
waits of `debounceMs` cover what is left of the duration bound. -/
theorem whileLoop_ends {ε : Type} (D : Driver ε) (maxShots : Nat)
    (timeoutMs debounceMs : Int) (outputDir : String) (startTime : Int)
    (hadv : D.Advances debounceMs) :
    ∀ (fuel : Nat) (s : LoopState ε),
      timeoutMs - (D.now s.env - startTime) ≤ fuel * debounceMs →
      whileLoop D maxShots timeoutMs debounceMs outputDir startTime fuel s ≠ .outOfFuel := by
  intro fuel
  induction fuel with
  | zero =>
    intro s hrem
    unfold whileLoop
    have hg : loopGuard D maxShots timeoutMs startTime s = false := by
      simp only [loopGuard, Bool.and_eq_false_iff, decide_eq_false_iff_not]
      left
      simp only [Nat.cast_zero, zero_mul] at hrem
      omega
    simp [hg]
  | succ n ih =>
    intro s hrem
    unfold whileLoop
    cases hg : loopGuard D maxShots timeoutMs startTime s with
    | false => simp
    | true =>
      cases hb : loopBody D debounceMs outputDir startTime s with
      | error err => simp
      | ok s1 =>
        have hclock := loopBody_clock D debounceMs outputDir startTime s s1 hadv hb
        simp only [if_true]
        apply ih s1
        have : ((n + 1 : Nat) : Int) * debounceMs = n * debounceMs + debounceMs := by
          push_cast
          ring
        rw [this] at hrem
        omega

theorem captureRun_ends {ε : Type} (D : Driver ε) (maxShots : Nat)
    (timeoutMs debounceMs : Int) (outputDir : String) (e : ε) (w : Window)
    (hadv : D.Advances debounceMs) (fuel : Nat) (hfuel : timeoutMs ≤ fuel * debounceMs) :
    captureRun D maxShots timeoutMs debounceMs outputDir fuel e w ≠ .outOfFuel := by
  unfold captureRun
  simp only
  split
  · simp
  · rename_i shot hshot
    apply whileLoop_ends D maxShots timeoutMs debounceMs outputDir _ hadv
    show timeoutMs - (D.now shot.1 - D.now shot.1) ≤ fuel * debounceMs
    omega

/-- C16 (fails as stated): in this browser every wait advances the clock by exactly the
time asked for, nothing is ever reported, and the clock is set back by one second during
the first read of the flag.  After 20 executions of the body the loop is still running; it
returns after 30. -/
theorem more_than_twenty_iterations :
    (∀ e, steppedDriver.now (steppedDriver.waitForTimeout DEBOUNCE_MS e).1 =
      steppedDriver.now e + DEBOUNCE_MS) ∧
    captureWithLogging steppedDriver "." 20 { clock := 1000, steps := [-1000] }
      setupMutationObserver = .outOfFuel ∧
    captureWithLogging steppedDriver "." 29 { clock := 1000, steps := [-1000] }
      setupMutationObserver = .outOfFuel ∧
    ∃ r, captureWithLogging steppedDriver "." 30 { clock := 1000, steps := [-1000] }
      setupMutationObserver = .returned r :=
  ⟨fun _ => rfl, rfl, rfl, _, rfl⟩

/-- C16 as amended: when every debounce wait advances the clock by at least `DEBOUNCE_MS`
and no other call moves the clock backwards, the loop of `captureWithLogging` ends within
20 executions of its body, whatever the browser reports: the run is not cut off by a
bound of 20, and it returns a session when no screenshot fails. -/
theorem loop_ends_within_twenty {ε : Type} (D : Driver ε) (outputDir : String) (e : ε)
    (w : Window) (hadv : D.Advances DEBOUNCE_MS) :
    captureWithLogging D outputDir 20 e w ≠ .outOfFuel ∧
    (D.NeverFails → ∃ r, captureWithLogging D outputDir 20 e w = .returned r) := by
  have hfuel : TIMEOUT_MS ≤ ((20 : Nat) : Int) * DEBOUNCE_MS := by decide
  constructor
  · have hrun := captureRun_ends D MAX_SCREENSHOTS TIMEOUT_MS DEBOUNCE_MS outputDir e w hadv
      20 hfuel
    unfold captureWithLogging captureWithLoggingWith
    cases hc : captureRun D MAX_SCREENSHOTS TIMEOUT_MS DEBOUNCE_MS outputDir 20 e w with
    | returned s2 => simp [Outcome.results]
    | threw err => simp [Outcome.results]
    | outOfFuel => exact absurd hc hrun
  · intro hnf
    exact captureWithLoggingWith_returns D MAX_SCREENSHOTS TIMEOUT_MS DEBOUNCE_MS outputDir
      e w hadv hnf 20 hfuel

/-- C16 as amended, for a browser that never reports activity: the run returns the
session of the initial snapshot within 20 iterations. -/
theorem loop_ends_within_twenty_witness :
    captureWithLogging scriptDriver "." 20 { clock := 1000, feed := [] }
        setupMutationObserver ≠ .outOfFuel ∧
    ∃ r, captureWithLogging scriptDriver "." 20 { clock := 1000, feed := [] }
        setupMutationObserver = .returned r ∧ r.timeline = [initialEntry] :=
  ⟨(loop_ends_within_twenty scriptDriver "." { clock := 1000, feed := [] }
      setupMutationObserver (scriptDriver_advances DEBOUNCE_MS)).1,
    _, rfl, rfl⟩

/-! ## The capture loop: elapsed times are ordered -/

theorem captureBlock_clock_monotone {ε : Type} (D : Driver ε) (debounceMs : Int)
    (outputDir : String) (startTime : Int) (s s1 : LoopState ε)
    (hmono : D.Monotone debounceMs)
    (h : captureBlock D outputDir startTime s = .ok s1) : D.now s.env ≤ D.now s1.env := by
  unfold captureBlock at h
  simp only at h
  split at h
  · exact absurd h (by simp)
  · rename_i shot hshot
    cases h
    have h1 := hmono.evaluate s.env
    have h2 := hmono.screenshot _ _ _ hshot
    show D.now s.env ≤ D.now shot.1
    have h3 : (getMutations D s).2.env = (D.evaluate s.env).1 := rfl
    rw [h3] at h2
    omega

theorem checkFlag_clock_monotone {ε : Type} (D : Driver ε) (debounceMs : Int)
    (s : LoopState ε) (hmono : D.Monotone debounceMs) :
    D.now s.env ≤ D.now (checkFlag D debounceMs s).2.env := by
  have h1 := hmono.wait s.env
  have h2 := hmono.evaluate (D.waitForTimeout debounceMs s.env).1
  show D.now s.env ≤ D.now (D.evaluate (D.waitForTimeout debounceMs s.env).1).1
  omega

/-- The entries are ordered by `time_ms` and none is later than the elapsed time now. -/
theorem ordered_step {ε : Type} (D : Driver ε) (debounceMs : Int) (outputDir : String)
    (startTime : Int) (hmono : D.Monotone debounceMs) (s s1 : LoopState ε)
    (hs : s.results.timeline.Pairwise (fun a b => a.time_ms ≤ b.time_ms) ∧
      ∀ entry ∈ s.results.timeline, entry.time_ms ≤ D.now s.env - startTime)
    (h : loopBody D debounceMs outputDir startTime s = .ok s1) :
    s1.results.timeline.Pairwise (fun a b => a.time_ms ≤ b.time_ms) ∧
      ∀ entry ∈ s1.results.timeline, entry.time_ms ≤ D.now s1.env - startTime := by
  have hcheck := checkFlag_clock_monotone D debounceMs s hmono
  cases hf : (checkFlag D debounceMs s).1 with
  | false =>
    rw [loopBody_of_flag_clear D debounceMs outputDir startTime s hf] at h
    cases h
    refine ⟨hs.1, fun entry hentry => ?_⟩
    have := hs.2 entry hentry
    omega
  | true =>
    rw [loopBody_of_flag_set D debounceMs outputDir startTime s hf] at h
    have hclock := captureBlock_clock_monotone D debounceMs outputDir startTime _ s1 hmono h
    obtain ⟨_, hr, _⟩ := captureBlock_ok D outputDir startTime _ s1 h
    rw [hr]
    simp only [record, checkFlag_results]
    constructor
    · rw [List.pairwise_append]
      refine ⟨hs.1, List.pairwise_singleton _ _, ?_⟩
      intro a ha b hb
      rw [List.mem_singleton.mp hb]
      have := hs.2 a ha
      show a.time_ms ≤ D.now (checkFlag D debounceMs s).2.env - startTime
      omega
    · intro entry hentry
      rcases List.mem_append.mp hentry with hold | hnew
      · have := hs.2 entry hold
        omega
      · rw [List.mem_singleton.mp hnew]
        show D.now (checkFlag D debounceMs s).2.env - startTime ≤ D.now s1.env - startTime
        omega

/-- C17: when the clock never goes backwards, the entries of every returned session are
in non-decreasing order of `time_ms`: for every position `i`, the entry at `i` has a
`time_ms` not above that of the entry at `i + 1`.  A session is returned whenever the
clock advances and no screenshot fails. -/
theorem time_ms_nondecreasing {ε : Type} (D : Driver ε) (maxShots : Nat)
    (timeoutMs debounceMs : Int) (outputDir : String) (e : ε) (w : Window)
    (hmono : D.Monotone debounceMs) :
    (∀ fuel r,
      captureWithLoggingWith D maxShots timeoutMs debounceMs outputDir fuel e w
        = .returned r →
      ∀ (i : Nat) (a b : TimelineEntry),
        r.timeline[i]? = some a → r.timeline[i + 1]? = some b → a.time_ms ≤ b.time_ms) ∧
    (D.Advances debounceMs → D.NeverFails →
      ∀ fuel : Nat, timeoutMs ≤ fuel * debounceMs →
        ∃ r, captureWithLoggingWith D maxShots timeoutMs debounceMs outputDir fuel e w
          = .returned r) := by
  refine ⟨?_, fun hadv hnf fuel hfuel =>
    captureWithLoggingWith_returns D maxShots timeoutMs debounceMs outputDir e w hadv hnf
      fuel hfuel⟩
  intro fuel r h i a b ha hb
  obtain ⟨s2, hrun, rfl⟩ :=
    captureWithLoggingWith_returned D maxShots timeoutMs debounceMs outputDir fuel e w r h
  obtain ⟨shot, _, hloop⟩ :=
    captureRun_returned_from D maxShots timeoutMs debounceMs outputDir fuel e w s2 hrun
  have hinv := (whileLoop_returned D maxShots timeoutMs debounceMs outputDir (D.now shot.1)
    (fun s => s.results.timeline.Pairwise (fun a b => a.time_ms ≤ b.time_ms) ∧
      ∀ entry ∈ s.results.timeline, entry.time_ms ≤ D.now s.env - D.now shot.1)
    (fun s s1 hs _ hbody =>
      ordered_step D debounceMs outputDir (D.now shot.1) hmono s s1 hs hbody)
    fuel _ s2
    ⟨List.pairwise_singleton _ _, by
      intro entry hentry
      simp only [startState, List.mem_singleton] at hentry
      rw [hentry]
      show (0 : Int) ≤ D.now shot.1 - D.now shot.1
      omega⟩ hloop).1.1
  have hi : i < s2.results.timeline.length := by
    by_contra hge
    rw [List.getElem?_eq_none (by omega)] at ha
    simp at ha
  have hi1 : i + 1 < s2.results.timeline.length := by
    by_contra hge
    rw [List.getElem?_eq_none (by omega)] at hb
    simp at hb
  rw [List.getElem?_eq_getElem hi] at ha
  rw [List.getElem?_eq_getElem hi1] at hb
  cases ha
  cases hb
  exact List.pairwise_iff_getElem.mp hinv i (i + 1) hi hi1 (by omega)

theorem scriptDriver_monotone (debounceMs : Int) (h : 0 ≤ debounceMs) :
    scriptDriver.Monotone debounceMs :=
  { wait := fun e => by
      show e.clock ≤ e.clock + debounceMs
      omega
    evaluate := fun e => le_refl _
    screenshot := by
      intro path e shot hshot
      simp only [scriptDriver, Except.ok.injEq] at hshot
      rw [← hshot]
      exact le_refl _ }

/-- C17 on the run of the end-to-end scenario: the three entries have `time_ms` 0, 10
and 30. -/
theorem time_ms_nondecreasing_witness :
    ∃ r, captureWithLoggingWith scriptDriver 3 100 10 "." 10
        { clock := 1000, feed := scenarioFeed insertion cursorChange textChange }
        setupMutationObserver = .returned r ∧
      r.timeline.map (fun entry => entry.time_ms) = [0, 10, 30] ∧
      ∀ (i : Nat) (a b : TimelineEntry),
        r.timeline[i]? = some a → r.timeline[i + 1]? = some b → a.time_ms ≤ b.time_ms :=
  ⟨_, rfl, rfl,
    (time_ms_nondecreasing scriptDriver 3 100 10 "."
      { clock := 1000, feed := scenarioFeed insertion cursorChange textChange }
      setupMutationObserver (scriptDriver_monotone 10 (by decide))).1 10 _ rfl⟩

/-! ## The flag and text changes -/

/-- C18 (fails in the code): a text change that leaves its node with the empty string is
recorded as significant, with `text` the empty string, but the test
`detail.added || detail.removed || detail.text` is false for it, so the flag stays clear;
a run in which this is the only mutation takes no snapshot after the initial one. -/
theorem empty_text_change_leaves_flag_clear :
    emptyTextChange.record.type = "characterData" ∧
    (observerDetail emptyTextChange.now emptyTextChange.record).significant = true ∧
    (observerDetail emptyTextChange.now emptyTextChange.record).text = some "" ∧
    raisesFlag (observerDetail emptyTextChange.now emptyTextChange.record) = false ∧
    (observe setupMutationObserver [emptyTextChange]).significantChange = false ∧
    captureWithLogging scriptDriver "." 20
      { clock := 1000, feed := [[], [emptyTextChange]] } setupMutationObserver =
      .returned
        { screenshots := ["./shot_0.png"], totalMutations := 0, significantMutations := 0,
          timeline := [initialEntry] } :=
  ⟨rfl, by decide, by decide, by decide, by decide, rfl⟩

/-! ## Records with a missing field -/

/-- C19 (fails as stated): the removal of the attribute `hidden` is an attribute change
with no new value, and a text change may come with no text content; both are recorded
with the field absent and `significant = true`, and when they are drained (here together
with an insertion) they count in `significantMutations` as well as in
`totalMutations`. -/
theorem missing_field_is_significant :
    getAttribute hiddenRemoved.record.target hiddenRemoved.record.attributeName = none ∧
    (observerDetail hiddenRemoved.now hiddenRemoved.record).newValue = none ∧
    (observerDetail hiddenRemoved.now hiddenRemoved.record).significant = true ∧
    textAbsent.record.target.textContent = none ∧
    (observerDetail textAbsent.now textAbsent.record).text = none ∧
    (observerDetail textAbsent.now textAbsent.record).significant = true ∧
    ∃ r, captureWithLogging scriptDriver "." 20
        { clock := 1000, feed := [[], [hiddenRemoved, textAbsent, insertion]] }
        setupMutationObserver = .returned r ∧
      r.totalMutations = 3 ∧ r.significantMutations = 3 :=
  ⟨by decide, by decide, by decide, rfl, by decide, by decide, _, rfl, rfl, rfl⟩

/-- C19 as amended: a record with a missing field is classified by the ordinary rules,
without raising.  An attribute change whose new value is absent is recorded with no
`newValue`, is significant exactly when its attribute is one of the 14 allow-listed names,
and does not raise the flag.  A text change whose text content is absent is recorded with
no `text`, is significant, and does not raise the flag.  When a batch is recorded, all its
records count in `totalMutations` and its significant records in
`significantMutations`. -/
theorem missing_field_classification (now : Int) (m : MutationRecord) :
    (m.type = "attributes" → getAttribute m.target m.attributeName = none →
      (observerDetail now m).newValue = none ∧
      ((observerDetail now m).significant = true ↔
        ∃ a, m.attributeName = some a ∧
          a ∈ ["aria-expanded", "aria-hidden", "aria-selected", "aria-checked",
               "hidden", "disabled", "checked", "selected", "open",
               "display", "visibility", "src", "href", "value"]) ∧
      raisesFlag (observerDetail now m) = false) ∧
    (m.type = "characterData" → m.target.textContent = none →
      (observerDetail now m).text = none ∧
      (observerDetail now m).significant = true ∧
      raisesFlag (observerDetail now m) = false) ∧
    (∀ (results : Results) (path : String) (entry : TimelineEntry) (batch : List Detail),
      (record results path entry batch).totalMutations =
        results.totalMutations + batch.length ∧
      (record results path entry batch).significantMutations =
        results.significantMutations + (batch.filter (fun d => d.significant)).length) := by
  refine ⟨?_, ?_, fun _ _ _ _ => ⟨rfl, rfl⟩⟩
  · intro h hnone
    have hflag : raisesFlag (observerDetail now m) = false := by
      rw [observerDetail_attributes now m h, attributesBranch_flag]
      rfl
    have hvalue : (observerDetail now m).newValue = none := by
      rw [observerDetail_attributes now m h, attributesBranch_newValue, hnone]
      rfl
    refine ⟨hvalue, ?_, hflag⟩
    by_cases hs : m.attributeName = some "style"
    · have hsig : (observerDetail now m).significant = false := by
        have hv : (attributesBranch m (initialDetail now m)).newValue = none := by
          rw [← observerDetail_attributes now m h]
          exact hvalue
        rw [observerDetail_attributes now m h, attributesBranch_style m _ hs rfl, hv]
        decide
      rw [hsig, hs]
      simp
    · rw [observerDetail_attributes now m h, attributesBranch_other m _ hs rfl]
      cases m.attributeName with
      | none => simp
      | some a => simp [SIGNIFICANT_ATTRS]
  · intro h hnone
    rw [observerDetail_characterData now m h]
    simp [characterDataBranch, initialDetail, raisesFlag, truthy, hnone]

/-! ## The order of the calls of `run` -/

theorem traced_checkFlag_log {ε : Type} (D : Driver ε) (debounceMs : Int)
    (s : LoopState (ε × List Call)) :
    (checkFlag D.traced debounceMs s).2.env.2 =
      s.env.2 ++ [Call.waitForTimeout debounceMs, Call.evaluate] := by
  simp [checkFlag, Driver.traced]

theorem traced_captureBlock_log {ε : Type} (D : Driver ε) (outputDir : String)
    (startTime : Int) (s s1 : LoopState (ε × List Call))
    (h : captureBlock D.traced outputDir startTime s = .ok s1) :
    s1.env.2 = s.env.2 ++
      [Call.evaluate, Call.screenshot (outputDir ++ "/" ++ shotFile s.count)] := by
  unfold captureBlock at h
  simp only [Driver.traced, getMutations] at h
  split at h
  · exact absurd h (by simp)
  · rename_i shot hshot
    split at hshot
    · exact absurd hshot (by simp)
    · cases hshot
      cases h
      simp

/-- Every execution of the loop body only appends calls to the log. -/
theorem traced_loopBody_log {ε : Type} (D : Driver ε) (debounceMs : Int)
    (outputDir : String) (startTime : Int) (s s1 : LoopState (ε × List Call))
    (h : loopBody D.traced debounceMs outputDir startTime s = .ok s1) :
    ∃ more, s1.env.2 = s.env.2 ++ more := by
  cases hf : (checkFlag D.traced debounceMs s).1 with
  | false =>
    rw [loopBody_of_flag_clear D.traced debounceMs outputDir startTime s hf] at h
    cases h
    exact ⟨_, traced_checkFlag_log D debounceMs s⟩
  | true =>
    rw [loopBody_of_flag_set D.traced debounceMs outputDir startTime s hf] at h
    have hlog := traced_captureBlock_log D outputDir startTime _ s1 h
    rw [traced_checkFlag_log] at hlog
    exact ⟨_, by rw [hlog, List.append_assoc]⟩

/-- The log at the end of a run of the capture loop that returns: the log at its start,
then the initial screenshot, then the calls of the loop. -/
theorem traced_captureRun_log {ε : Type} (D : Driver ε) (maxShots : Nat)
    (timeoutMs debounceMs : Int) (outputDir : String) (fuel : Nat) (e : ε)
    (log : List Call) (w : Window) (s2 : LoopState (ε × List Call))
    (h : captureRun D.traced maxShots timeoutMs debounceMs outputDir fuel (e, log) w
      = .returned s2) :
    ∃ rest, s2.env.2 =
      log ++ [Call.screenshot (outputDir ++ "/" ++ "shot_0.png")] ++ rest := by
  obtain ⟨shot, hshot, hloop⟩ :=
    captureRun_returned_from D.traced maxShots timeoutMs debounceMs outputDir fuel (e, log)
      w s2 h
  have hstart : shot.1.2 = log ++ [Call.screenshot (outputDir ++ "/" ++ "shot_0.png")] := by
    simp only [Driver.traced] at hshot
    split at hshot
    · exact absurd hshot (by simp)
    · cases hshot
      rfl
  refine (whileLoop_returned D.traced maxShots timeoutMs debounceMs outputDir _
    (fun s => ∃ rest, s.env.2 =
      log ++ [Call.screenshot (outputDir ++ "/" ++ "shot_0.png")] ++ rest)
    ?_ fuel _ s2 ⟨[], by simp [startState, hstart]⟩ hloop).1
  intro s s1 hs _ hbody
  obtain ⟨rest, hrest⟩ := hs
  obtain ⟨more, hmore⟩ := traced_loopBody_log D debounceMs outputDir _ s s1 hbody
  exact ⟨rest ++ more, by rw [hmore, hrest, List.append_assoc]⟩

theorem traced_performAction_log {ε : Type} (B : Browser ε) (action : Option Action)
    (e : ε) (log : List Call) (acted : (ε × List Call) × List Arrival)
    (h : performAction B.traced action (e, log) = .ok acted) :
    acted.1.2 = log ++ action.toList.map Call.perform := by
  cases action with
  | none =>
    simp only [performAction, Except.ok.injEq] at h
    rw [← h]
    simp
  | some a =>
    simp only [performAction, Browser.traced] at h
    cases hp : B.perform a e with
    | error err => rw [hp] at h; simp [Except.map] at h
    | ok r =>
      rw [hp] at h
      simp only [Except.map, Except.ok.injEq] at h
      rw [← h]
      simp

/-- C20 (fails as stated): in this run, with no action, the calls made to the browser
start with the launch, the navigation, the installation of the observer and only then
the initial screenshot: the observer is installed at position 2 of the log and
`shot_0.png` is taken at position 3. -/
theorem observer_installed_first :
    ∃ s2,
      runState scriptBrowser.traced none none none 20
        ({ clock := 1000, feed := [] }, []) = .returned s2 ∧
      s2.env.2.take 4 =
        [Call.launch, Call.goto "https://example.com", Call.setupObserver,
         Call.screenshot "./shot_0.png"] ∧
      s2.env.2.indexOf Call.setupObserver = 2 ∧
      s2.env.2.indexOf (Call.screenshot "./shot_0.png") = 3 :=
  ⟨_, rfl, rfl, rfl, rfl⟩

/-- C20 as amended: in every run that returns, the calls made to the browser are, in this
order, the launch, the navigation to the target, the installation of the observer, the
action if one was chosen, the initial screenshot `./shot_0.png`, and then the calls of
the loop: the observer is installed after the page has loaded and before the action and
the initial screenshot. -/
theorem observer_installed_after_load {ε : Type} (B : Browser ε)
    (url action actionArg : Option String) (fuel : Nat) (e : ε)
    (s2 : LoopState (ε × List Call))
    (h : runState B.traced url action actionArg fuel (e, []) = .returned s2) :
    ∃ rest, s2.env.2 =
      [Call.launch, Call.goto (if truthy url then url.getD "" else "https://example.com"),
        Call.setupObserver] ++
      (selectAction action actionArg).toList.map Call.perform ++
      [Call.screenshot "./shot_0.png"] ++ rest := by
  unfold runState at h
  simp only at h
  cases h1 : B.traced.launch (e, []) with
  | error err => rw [h1] at h; simp at h
  | ok launched =>
    rw [h1] at h
    simp only at h
    cases h2 : B.traced.goto (if truthy url then url.getD "" else "https://example.com")
        launched with
    | error err => rw [h2] at h; simp at h
    | ok loaded =>
      rw [h2] at h
      simp only at h
      cases h3 : B.traced.setupObserver loaded with
      | error err => rw [h3] at h; simp at h
      | ok observed =>
        rw [h3] at h
        simp only at h
        cases h4 : performAction B.traced (selectAction action actionArg) observed with
        | error err => rw [h4] at h; simp at h
        | ok acted =>
          rw [h4] at h
          simp only at h
          cases h5 : captureRun B.traced.page MAX_SCREENSHOTS TIMEOUT_MS DEBOUNCE_MS "."
              fuel acted.1 (observe setupMutationObserver acted.2) with
          | threw err => rw [h5] at h; simp at h
          | outOfFuel => rw [h5] at h; simp at h
          | returned s =>
            rw [h5] at h
            simp only at h
            cases h6 : B.traced.close s.env with
            | error err => rw [h6] at h; simp at h
            | ok closed =>
              rw [h6] at h
              simp only [Outcome.returned.injEq] at h
              have hl1 : launched.2 = [Call.launch] := by
                simp only [Browser.traced] at h1
                cases hb : B.launch e with
                | error err => rw [hb] at h1; simp [Except.map] at h1
                | ok e1 =>
                  rw [hb] at h1
                  simp only [Except.map, Except.ok.injEq] at h1
                  rw [← h1]
                  rfl
              have hl2 : loaded.2 = launched.2 ++
                  [Call.goto (if truthy url then url.getD "" else "https://example.com")] := by
                simp only [Browser.traced] at h2
                cases hb : B.goto (if truthy url then url.getD "" else "https://example.com")
                    launched.1 with
                | error err => rw [hb] at h2; simp [Except.map] at h2
                | ok e1 =>
                  rw [hb] at h2
                  simp only [Except.map, Except.ok.injEq] at h2
                  rw [← h2]
              have hl3 : observed.2 = loaded.2 ++ [Call.setupObserver] := by
                simp only [Browser.traced] at h3
                cases hb : B.setupObserver loaded.1 with
                | error err => rw [hb] at h3; simp [Except.map] at h3
                | ok e1 =>
                  rw [hb] at h3
                  simp only [Except.map, Except.ok.injEq] at h3
                  rw [← h3]
              have hl4 := traced_performAction_log B (selectAction action actionArg)
                observed.1 observed.2 acted h4
              have hpage : B.traced.page = B.page.traced := rfl
              rw [hpage] at h5
              obtain ⟨rest, hrest⟩ := traced_captureRun_log B.page MAX_SCREENSHOTS
                TIMEOUT_MS DEBOUNCE_MS "." fuel acted.1.1 acted.1.2
                (observe setupMutationObserver acted.2) s h5
              have hl6 : closed.2 = s.env.2 ++ [Call.close] := by
                simp only [Browser.traced] at h6
                cases hb : B.close s.env.1 with
                | error err => rw [hb] at h6; simp [Except.map] at h6
                | ok e1 =>
                  rw [hb] at h6
                  simp only [Except.map, Except.ok.injEq] at h6
                  rw [← h6]
              refine ⟨rest ++ [Call.close], ?_⟩
              rw [← h]
              show closed.2 = _
              rw [hl6, hrest, hl4, hl3, hl2, hl1]
              simp

/-- C20 as amended, on a run whose action is a click: the log starts with the launch,
the navigation, the installation of the observer, the click and the initial
screenshot. -/
theorem observer_installed_after_load_witness :
    ∃ s2 rest,
      runState scriptBrowser.traced none (some "click") (some "100,200") 20
        ({ clock := 1000, feed := [[insertion]] }, []) = .returned s2 ∧
      s2.env.2 =
        [Call.launch, Call.goto "https://example.com", Call.setupObserver] ++
        [Call.perform (Action.click "100,200")] ++
        [Call.screenshot "./shot_0.png"] ++ rest :=
  match observer_installed_after_load scriptBrowser none (some "click") (some "100,200") 20
      { clock := 1000, feed := [[insertion]] } _ rfl with
  | ⟨rest, hlog⟩ => ⟨_, rest, rfl, hlog⟩

/-! ## Entries, counters and drains on the run of the scenario -/

/-- C12 on the run of the end-to-end scenario: the batches drained have 1 and 2 records,
and the entries hold 0, 1 and 1 records, the significant ones of each batch. -/
theorem timeline_mutations_of_drains_witness :
    ∃ s2,
      captureRun scriptDriver 3 100 10 "." 10
        { clock := 1000, feed := scenarioFeed insertion cursorChange textChange }
        setupMutationObserver = .returned s2 ∧
      s2.drains.map List.length = [1, 2] ∧
      s2.results.timeline.map (fun entry => entry.mutations.length) = [0, 1, 1] ∧
      s2.results.timeline.map (fun entry => entry.mutations) =
        [] :: s2.drains.map (fun batch => batch.filter (fun d => d.significant)) :=
  ⟨_, rfl, rfl, rfl,
    ((timeline_mutations_of_drains scriptDriver 3 100 10 "."
      { clock := 1000, feed := scenarioFeed insertion cursorChange textChange }
      setupMutationObserver).1 10 _ rfl).1⟩

/-- C14 on the run of the end-to-end scenario: 3 records were drained, 2 of them
significant, and the counters are 3 and 2. -/
theorem counters_of_drains_witness :
    ∃ s2,
      captureRun scriptDriver 3 100 10 "." 10
        { clock := 1000, feed := scenarioFeed insertion cursorChange textChange }
        setupMutationObserver = .returned s2 ∧
      s2.drains.map List.length = [1, 2] ∧
      s2.results.totalMutations = 3 ∧ s2.results.significantMutations = 2 ∧
      s2.results.totalMutations = (s2.drains.map List.length).sum :=
  ⟨_, rfl, rfl, rfl, rfl,
    ((counters_of_drains scriptDriver 3 100 10 "."
      { clock := 1000, feed := scenarioFeed insertion cursorChange textChange }
      setupMutationObserver).1 10 _ rfl).1⟩

/-! ## Atomic delivery: every snapshot has a significant record -/

theorem flagBacked_observeOne (w : Window) (a : Arrival) (hw : w.FlagBacked) :
    (observeOne w a).FlagBacked := by
  intro hflag
  cases hf : raisesFlag (observerDetail a.now a.record) with
  | true =>
    exact ⟨observerDetail a.now a.record, by simp [observeOne],
      raisesFlag_significant a.now a.record hf⟩
  | false =>
    have hold : w.significantChange = true := by
      simpa [observeOne, hf] using hflag
    obtain ⟨d, hd, hsig⟩ := hw hold
    exact ⟨d, by simp [observeOne, hd], hsig⟩

theorem flagBacked_observe (arrivals : List Arrival) (w : Window) (hw : w.FlagBacked) :
    (observe w arrivals).FlagBacked := by
  induction arrivals generalizing w with
  | nil => exact hw
  | cons a rest ih => exact ih (observeOne w a) (flagBacked_observeOne w a hw)

theorem flagBacked_of_clear (w : Window) (h : w.significantChange = false) :
    w.FlagBacked := by
  intro hflag
  rw [h] at hflag
  exact absurd hflag (by decide)

theorem flagBacked_setup : setupMutationObserver.FlagBacked :=
  flagBacked_of_clear _ rfl

theorem captureBlock_ok_window {ε : Type} (D : Driver ε) (outputDir : String)
    (startTime : Int) (s s1 : LoopState ε)
    (h : captureBlock D outputDir startTime s = .ok s1) :
    ∃ arrivals, s1.window = observe (getMutations D s).2.window arrivals := by
  unfold captureBlock at h
  simp only at h
  split at h
  · exact absurd h (by simp)
  · rename_i shot _
    cases h
    exact ⟨shot.2, rfl⟩

/-- With atomic delivery the batch drained in a tick whose flag was set is the buffer as
it was when the flag was read, and it holds a significant record. -/
theorem drained_has_significant {ε : Type} (D : Driver ε) (debounceMs : Int)
    (s : LoopState ε) (hatomic : D.AtomicDelivery debounceMs) (hw : s.window.FlagBacked)
    (hflag : (checkFlag D debounceMs s).1 = true) :
    1 ≤ (significantOf (getMutations D (checkFlag D debounceMs s).2).1).length ∧
    (getMutations D (checkFlag D debounceMs s).2).2.window.significantChange = false := by
  have hnone : (D.evaluate (checkFlag D debounceMs s).2.env).2 = [] := hatomic s.env
  have hbacked := flagBacked_observe (D.evaluate (D.waitForTimeout debounceMs s.env).1).2 _
    (flagBacked_observe (D.waitForTimeout debounceMs s.env).2 s.window hw)
  obtain ⟨d, hd, hsig⟩ := hbacked hflag
  constructor
  · have hmem : d ∈ significantOf (getMutations D (checkFlag D debounceMs s).2).1 := by
      simp only [significantOf, getMutations, takeMutations, hnone, observe, List.foldl_nil,
        List.mem_filter]
      exact ⟨hd, hsig⟩
    exact List.length_pos_of_mem hmem
  · simp only [getMutations, takeMutations, hnone, observe, List.foldl_nil]
    rfl

theorem significant_entry_step {ε : Type} (D : Driver ε) (debounceMs : Int)
    (outputDir : String) (startTime : Int) (hatomic : D.AtomicDelivery debounceMs)
    (s s1 : LoopState ε)
    (hs : s.window.FlagBacked ∧ ∀ entry ∈ s.results.timeline, entry ≠ initialEntry →
      ∃ k, entry.significantCount = some k ∧ 1 ≤ k ∧ k = entry.mutations.length)
    (h : loopBody D debounceMs outputDir startTime s = .ok s1) :
    s1.window.FlagBacked ∧ ∀ entry ∈ s1.results.timeline, entry ≠ initialEntry →
      ∃ k, entry.significantCount = some k ∧ 1 ≤ k ∧ k = entry.mutations.length := by
  cases hf : (checkFlag D debounceMs s).1 with
  | false =>
    rw [loopBody_of_flag_clear D debounceMs outputDir startTime s hf] at h
    cases h
    exact ⟨flagBacked_of_clear _ rfl, hs.2⟩
  | true =>
    rw [loopBody_of_flag_set D debounceMs outputDir startTime s hf] at h
    obtain ⟨hpos, hclear⟩ := drained_has_significant D debounceMs s hatomic hs.1 hf
    obtain ⟨arrivals, hwin⟩ := captureBlock_ok_window D outputDir startTime _ s1 h
    obtain ⟨_, hr, _⟩ := captureBlock_ok D outputDir startTime _ s1 h
    constructor
    · rw [hwin]
      exact flagBacked_observe arrivals _ (flagBacked_of_clear _ hclear)
    · intro entry hentry hne
      rw [hr] at hentry
      simp only [record, checkFlag_results, List.mem_append, List.mem_singleton] at hentry
      rcases hentry with hold | hnew
      · exact hs.2 entry hold hne
      · rw [hnew]
        exact ⟨_, rfl, hpos, rfl⟩

/-- C22: under atomic delivery, on a page whose flag is backed by its buffer when the loop
starts (as it is after `setupMutationObserver` and any number of mutations), every entry
other than the initial one of every returned session has `significantCount ≥ 1`, which is
the length of its mutation list.  A session is returned whenever the clock advances and
no screenshot fails. -/
theorem every_snapshot_has_significant {ε : Type} (D : Driver ε) (maxShots : Nat)
    (timeoutMs debounceMs : Int) (outputDir : String) (e : ε) (w : Window)
    (hatomic : D.AtomicDelivery debounceMs) (hw : w.FlagBacked) :
    (∀ fuel r,
      captureWithLoggingWith D maxShots timeoutMs debounceMs outputDir fuel e w
        = .returned r →
      ∀ entry ∈ r.timeline, entry ≠ initialEntry →
        ∃ k, entry.significantCount = some k ∧ 1 ≤ k ∧ k = entry.mutations.length) ∧
    (D.Advances debounceMs → D.NeverFails →
      ∀ fuel : Nat, timeoutMs ≤ fuel * debounceMs →
        ∃ r, captureWithLoggingWith D maxShots timeoutMs debounceMs outputDir fuel e w
          = .returned r) := by
  refine ⟨?_, fun hadv hnf fuel hfuel =>
    captureWithLoggingWith_returns D maxShots timeoutMs debounceMs outputDir e w hadv hnf
      fuel hfuel⟩
  intro fuel r h
  obtain ⟨s2, hrun, rfl⟩ :=
    captureWithLoggingWith_returned D maxShots timeoutMs debounceMs outputDir fuel e w r h
  obtain ⟨shot, _, hloop⟩ :=
    captureRun_returned_from D maxShots timeoutMs debounceMs outputDir fuel e w s2 hrun
  exact ((whileLoop_returned D maxShots timeoutMs debounceMs outputDir (D.now shot.1)
    (fun s => s.window.FlagBacked ∧ ∀ entry ∈ s.results.timeline, entry ≠ initialEntry →
      ∃ k, entry.significantCount = some k ∧ 1 ≤ k ∧ k = entry.mutations.length)
    (fun s s1 hs _ hbody =>
      significant_entry_step D debounceMs outputDir (D.now shot.1) hatomic s s1 hs hbody)
    fuel _ s2
    ⟨flagBacked_observe shot.2 w hw, by
      intro entry hentry hne
      simp only [startState, List.mem_singleton] at hentry
      exact absurd hentry hne⟩ hloop).1).2

theorem calmDriver_atomic (debounceMs : Int) : calmDriver.AtomicDelivery debounceMs :=
  fun _ => rfl

/-- C22 on the end-to-end scenario with atomic delivery: the entries of `shot_1.png` and
`shot_2.png` have 1 significant record each. -/
theorem every_snapshot_has_significant_witness :
    ∃ r, captureWithLoggingWith calmDriver 3 100 10 "." 10
        { clock := 1000, feed := calmFeed } setupMutationObserver = .returned r ∧
      r.timeline.map (fun entry => entry.significantCount) = [none, some 1, some 1] ∧
      ∀ entry ∈ r.timeline, entry ≠ initialEntry →
        ∃ k, entry.significantCount = some k ∧ 1 ≤ k ∧ k = entry.mutations.length :=
  ⟨_, rfl, rfl,
    (every_snapshot_has_significant calmDriver 3 100 10 "."
      { clock := 1000, feed := calmFeed } setupMutationObserver (calmDriver_atomic 10)
      flagBacked_setup).1 10 _ rfl⟩

/-! ## The invariant of the session -/

theorem significantOf_length_le (batch : List Detail) :
    (significantOf batch).length ≤ batch.length :=
  List.length_filter_le _ _

theorem countsMatch_changeEntry (count : Nat) (elapsed : Int) (batch : List Detail) :
    CountsMatch (changeEntry count elapsed batch) batch := by
  refine ⟨(significantOf batch).length, batch.length - (significantOf batch).length, rfl,
    rfl, ?_⟩
  have := significantOf_length_le batch
  omega

theorem sessionOk_start {ε : Type} (e : ε) (w : Window) (initialPath : String) :
    SessionOk (startState e w initialPath) :=
  { screenshots_length := rfl
    timeline_length := rfl
    significant_le := le_refl _
    significant_sum := rfl
    counts := ⟨[], rfl, List.Forall₂.nil⟩ }

theorem sessionOk_step {ε : Type} (D : Driver ε) (debounceMs : Int) (outputDir : String)
    (startTime : Int) (s s1 : LoopState ε) (hs : SessionOk s)
    (h : loopBody D debounceMs outputDir startTime s = .ok s1) : SessionOk s1 := by
  rcases loopBody_ok_drains D debounceMs outputDir startTime s s1 h with
    ⟨hr, hd, hc⟩ | ⟨batch, elapsed, hd, hc, hr⟩
  · exact
      { screenshots_length := by rw [hr, hc]; exact hs.screenshots_length
        timeline_length := by rw [hr, hc]; exact hs.timeline_length
        significant_le := by rw [hr]; exact hs.significant_le
        significant_sum := by rw [hr]; exact hs.significant_sum
        counts := by rw [hr, hd]; exact hs.counts }
  · have hle := significantOf_length_le batch
    obtain ⟨rest, hrest, hall⟩ := hs.counts
    refine
      { screenshots_length := ?_
        timeline_length := ?_
        significant_le := ?_
        significant_sum := ?_
        counts := ⟨rest ++ [changeEntry s.count elapsed batch], ?_, ?_⟩ }
    · rw [hr, hc]
      simp [record, hs.screenshots_length]
    · rw [hr, hc]
      simp [record, hs.timeline_length]
    · rw [hr]
      have := hs.significant_le
      simp only [record]
      omega
    · rw [hr]
      simp only [record, List.map_append, List.sum_append, List.map_cons, List.map_nil,
        List.sum_cons, List.sum_nil, add_zero]
      rw [← hs.significant_sum]
      rfl
    · rw [hr]
      simp [record, hrest]
    · rw [hd]
      exact List.rel_append hall
        (List.Forall₂.cons (countsMatch_changeEntry s.count elapsed batch) List.Forall₂.nil)

/-- C23: the invariant `SessionOk` holds when the loop starts, is kept by every execution
of the loop body, and so holds in the final state of every run that returns: `screenshots`
and `timeline` have `count` elements, `significantMutations ≤ totalMutations`,
`significantMutations` is the sum of the lengths of the mutation lists of the entries,
and the entries after the initial one correspond one to one to the drained batches, each
with `significantCount + trivialCount` equal to the size of its batch. -/
theorem session_invariant {ε : Type} (D : Driver ε) (maxShots : Nat)
    (timeoutMs debounceMs : Int) (outputDir : String) :
    (∀ (e : ε) (w : Window) (initialPath : String),
      SessionOk (startState e w initialPath)) ∧
    (∀ (startTime : Int) (s s1 : LoopState ε), SessionOk s →
      loopBody D debounceMs outputDir startTime s = .ok s1 → SessionOk s1) ∧
    (∀ (fuel : Nat) (e : ε) (w : Window) (s2 : LoopState ε),
      captureRun D maxShots timeoutMs debounceMs outputDir fuel e w = .returned s2 →
      s2.results.screenshots.length = s2.count ∧
      s2.results.timeline.length = s2.count ∧
      s2.results.significantMutations ≤ s2.results.totalMutations ∧
      s2.results.significantMutations =
        (s2.results.timeline.map (fun entry => entry.mutations.length)).sum ∧
      ∃ rest, s2.results.timeline = initialEntry :: rest ∧
        List.Forall₂
          (fun entry batch => ∃ significant trivial,
            entry.significantCount = some significant ∧
            entry.trivialCount = some trivial ∧ significant + trivial = batch.length)
          rest s2.drains) := by
  refine ⟨sessionOk_start, fun startTime s s1 hs hb =>
    sessionOk_step D debounceMs outputDir startTime s s1 hs hb, ?_⟩
  intro fuel e w s2 hrun
  have hok : SessionOk s2 :=
    captureRun_returned D maxShots timeoutMs debounceMs outputDir (fun s => SessionOk s)
      (fun e1 w1 => sessionOk_start e1 w1 _)
      (fun startTime s s1 hs _ hb => sessionOk_step D debounceMs outputDir startTime s s1 hs hb)
      fuel e w s2 hrun
  exact ⟨hok.screenshots_length, hok.timeline_length, hok.significant_le,
    hok.significant_sum, hok.counts⟩

/-- C23 on the run of the end-to-end scenario: 3 screenshots and 3 entries for a count of
3, counters 2 and 3, and batches of 1 and 2 records reported as 1 + 0 and 1 + 1. -/
theorem session_invariant_witness :
    ∃ s2,
      captureRun scriptDriver 3 100 10 "." 10
        { clock := 1000, feed := scenarioFeed insertion cursorChange textChange }
        setupMutationObserver = .returned s2 ∧
      s2.count = 3 ∧ s2.results.screenshots.length = 3 ∧
      s2.results.timeline.map (fun entry => (entry.significantCount, entry.trivialCount)) =
        [(none, none), (some 1, some 0), (some 1, some 1)] ∧
      s2.drains.map List.length = [1, 2] ∧
      s2.results.significantMutations ≤ s2.results.totalMutations :=
  ⟨_, rfl, rfl, rfl, rfl, rfl,
    ((session_invariant scriptDriver 3 100 10 ".").2.2 10
      { clock := 1000, feed := scenarioFeed insertion cursorChange textChange }
      setupMutationObserver _ rfl).2.2.1⟩

end DomScreenshot

/-! # Running commands: the results of `runCommands` -/

namespace RunCommand

/-- What the loop adds to `results` when `continueOnError` is not set: entries for a
prefix of the commands, all but the last with exit code 0, and as many as there are
commands exactly when no command before the last has another exit code. -/
theorem commandLoop_stops {σ : Type} (S : Shell σ) :
    ∀ (commands : List String) (acc : List CommandEntry) (s : σ)
      (results : List CommandEntry) (s1 : σ),
      commandLoop S false commands acc s = .ok (results, s1) →
      ∃ added, results = acc ++ added ∧
        added.map (fun entry => entry.cmd) <+: commands ∧
        (∀ (i : Nat) (entry : CommandEntry), added[i]? = some entry →
          i + 1 < added.length → entry.result.code = some 0) ∧
        (added.length = commands.length ↔
          ∀ (i : Nat) (entry : CommandEntry), added[i]? = some entry →
            i + 1 < commands.length → entry.result.code = some 0) := by
  intro commands
  induction commands with
  | nil =>
    intro acc s results s1 h
    simp only [commandLoop, Except.ok.injEq, Prod.mk.injEq] at h
    exact ⟨[], by simp [h.1], by simp, by simp, by simp⟩
  | cons cmd rest ih =>
    intro acc s results s1 h
    unfold commandLoop at h
    cases hrun : S.runCommand cmd s with
    | error err => rw [hrun] at h; simp at h
    | ok ran =>
      rw [hrun] at h
      simp only at h
      by_cases hcode : ran.1.code = some 0
      · simp only [hcode, ne_eq, not_true_eq_false, false_and, if_false] at h
        obtain ⟨added, hres, hpre, hzero, hall⟩ := ih _ _ _ _ h
        refine ⟨{ cmd := cmd, result := ran.1 } :: added, by simp [hres], ?_, ?_, ?_⟩
        · simpa [List.prefix_cons_inj] using hpre
        · intro i entry hi hlt
          cases i with
          | zero =>
            simp only [List.getElem?_cons_zero, Option.some.injEq] at hi
            rw [← hi]
            exact hcode
          | succ j =>
            simp only [List.getElem?_cons_succ] at hi
            simp only [List.length_cons] at hlt
            exact hzero j entry hi (by omega)
        · simp only [List.length_cons, add_left_inj]
          rw [hall]
          constructor
          · intro hrest i entry hi hlt
            cases i with
            | zero =>
              simp only [List.getElem?_cons_zero, Option.some.injEq] at hi
              rw [← hi]
              exact hcode
            | succ j =>
              simp only [List.getElem?_cons_succ] at hi
              exact hrest j entry hi (by omega)
          · intro hfull i entry hi hlt
            exact hfull (i + 1) entry (by simpa using hi) (by omega)
      · simp only [ne_eq, hcode, not_false_eq_true, and_self, if_true, Except.ok.injEq,
          Prod.mk.injEq] at h
        refine ⟨[{ cmd := cmd, result := ran.1 }], h.1.symm, by simp, ?_, ?_⟩
        · intro i entry _ hlt
          simp only [List.length_singleton] at hlt
          omega
        · have hone : [({ cmd := cmd, result := ran.1 } : CommandEntry)].length = 1 := rfl
          have hcons : (cmd :: rest).length = rest.length + 1 := rfl
          rw [hone, hcons]
          constructor
          · intro hlen i entry hi hlt
            cases i with
            | zero => omega
            | succ j => simp at hi
          · intro hfull
            by_contra hne
            have := hfull 0 { cmd := cmd, result := ran.1 } rfl (by omega)
            exact hcode this

/-- With `continueOnError` set the loop adds one entry per command, in order. -/
theorem commandLoop_continues {σ : Type} (S : Shell σ) :
    ∀ (commands : List String) (acc : List CommandEntry) (s : σ)
      (results : List CommandEntry) (s1 : σ),
      commandLoop S true commands acc s = .ok (results, s1) →
      results.map (fun entry => entry.cmd) =
        acc.map (fun entry => entry.cmd) ++ commands := by
  intro commands
  induction commands with
  | nil =>
    intro acc s results s1 h
    simp only [commandLoop, Except.ok.injEq, Prod.mk.injEq] at h
    simp [h.1]
  | cons cmd rest ih =>
    intro acc s results s1 h
    unfold commandLoop at h
    cases hrun : S.runCommand cmd s with
    | error err => rw [hrun] at h; simp at h
    | ok ran =>
      rw [hrun] at h
      simp only [Bool.true_eq_false, and_false, if_false] at h
      rw [ih _ _ _ _ h]
      simp

/-- The loop returns when no command fails to start. -/
theorem commandLoop_returns {σ : Type} (S : Shell σ)
    (hstart : ∀ cmd s, ∃ ran, S.runCommand cmd s = .ok ran) (continueOnError : Bool) :
    ∀ (commands : List String) (acc : List CommandEntry) (s : σ),
      ∃ out, commandLoop S continueOnError commands acc s = .ok out := by
  intro commands
  induction commands with
  | nil => intro acc s; exact ⟨_, rfl⟩
  | cons cmd rest ih =>
    intro acc s
    obtain ⟨ran, hran⟩ := hstart cmd s
    unfold commandLoop
    simp only [hran]
    split_ifs
    · exact ⟨_, rfl⟩
    · exact ih _ _

/-- C24: without `continueOnError`, the results `runCommands` returns are those of a
prefix of the command list, in order; every result but the last has exit code 0; and
there is a result for every command exactly when no command before the last has an exit
code other than 0.  With `continueOnError` there is one result per command, in order.
The function returns whenever every command can be started. -/
theorem runCommands_results {σ : Type} (S : Shell σ) (commands : List String) (s : σ) :
    (∀ results s1, runCommands S commands false s = .ok (results, s1) →
      results.map (fun entry => entry.cmd) <+: commands ∧
      (∀ (i : Nat) (entry : CommandEntry), results[i]? = some entry →
        i + 1 < results.length → entry.result.code = some 0) ∧
      (results.length = commands.length ↔
        ∀ (i : Nat) (entry : CommandEntry), results[i]? = some entry →
          i + 1 < commands.length → entry.result.code = some 0)) ∧
    (∀ results s1, runCommands S commands true s = .ok (results, s1) →
      results.map (fun entry => entry.cmd) = commands) ∧
    ((∀ cmd t, ∃ ran, S.runCommand cmd t = .ok ran) →
      ∀ continueOnError, ∃ out, runCommands S commands continueOnError s = .ok out) := by
  refine ⟨?_, ?_, ?_⟩
  · intro results s1 h
    obtain ⟨added, hres, hrest⟩ := commandLoop_stops S commands [] s results s1 h
    simp only [List.nil_append] at hres
    rw [hres]
    exact hrest
  · intro results s1 h
    simpa using commandLoop_continues S commands [] s results s1 h
  · intro hstart continueOnError
    exact commandLoop_returns S hstart continueOnError commands [] s

/-- C24 on three commands of which the second exits with code 1: two results without
`continueOnError`, three with it. -/
theorem runCommands_results_witness :
    (∃ results s1, runCommands scriptShell ["a", "b", "c"] false [some 0, some 1, some 0]
        = .ok (results, s1) ∧
      results.map (fun entry => (entry.cmd, entry.result.code)) =
        [("a", some 0), ("b", some 1)] ∧
      results.map (fun entry => entry.cmd) <+: ["a", "b", "c"]) ∧
    (∃ results s1, runCommands scriptShell ["a", "b", "c"] true [some 0, some 1, some 0]
        = .ok (results, s1) ∧
      results.map (fun entry => entry.cmd) = ["a", "b", "c"]) :=
  ⟨⟨_, _, rfl, rfl,
    ((runCommands_results scriptShell ["a", "b", "c"] [some 0, some 1, some 0]).1 _ _
      rfl).1⟩,
   ⟨_, _, rfl,
    (runCommands_results scriptShell ["a", "b", "c"] [some 0, some 1, some 0]).2.1 _ _
      rfl⟩⟩

end RunCommand

/-! # Desktop control: the clicks of `scroll` -/

namespace DesktopControl

theorem digitValue_digitChar (d : Nat) (h : d < 10) :
    digitValue 10 (Nat.digitChar d) = some d := by
  interval_cases d <;> rfl

theorem digitChar_not_space (d : Nat) (h : d < 10) :
    isStrWhiteSpaceChar (Nat.digitChar d) = false := by
  interval_cases d <;> rfl

theorem digitChar_not_sign (d : Nat) (h : d < 10) :
    Nat.digitChar d ≠ '-' ∧ Nat.digitChar d ≠ '+' ∧ Nat.digitChar d ≠ 'x' ∧
      Nat.digitChar d ≠ 'X' := by
  interval_cases d <;> decide

theorem takeDigits_digitChars (digits : List Nat) (h : ∀ d ∈ digits, d < 10) :
    takeDigits 10 (digits.map Nat.digitChar) = digits := by
  induction digits with
  | nil => rfl
  | cons d rest ih =>
    simp only [List.map_cons, takeDigits, digitValue_digitChar d (h d (List.mem_cons_self d rest))]
    rw [ih (fun x hx => h x (List.mem_cons_of_mem d hx))]

theorem toDigitsCore_digits :
    ∀ (fuel n : Nat) (ds : List Char), n < fuel →
      ∃ digits : List Nat, digits ≠ [] ∧ (∀ d ∈ digits, d < 10) ∧
        Nat.toDigitsCore 10 fuel n ds = digits.map Nat.digitChar ++ ds ∧
        digits.foldl (fun acc d => acc * 10 + d) 0 = n := by
  intro fuel
  induction fuel with
  | zero => intro n ds h; omega
  | succ f ih =>
    intro n ds h
    unfold Nat.toDigitsCore
    simp only
    by_cases hq : n / 10 = 0
    · simp only [hq, if_true]
      refine ⟨[n % 10], by simp, ?_, by simp, ?_⟩
      · intro d hd
        simp only [List.mem_singleton] at hd
        omega
      · simp only [List.foldl_cons, List.foldl_nil]
        omega
    · simp only [hq, if_false]
      obtain ⟨digits, hne, hlt, heq, hval⟩ := ih (n / 10) (Nat.digitChar (n % 10) :: ds) (by omega)
      refine ⟨digits ++ [n % 10], by simp, ?_, ?_, ?_⟩
      · intro d hd
        rcases List.mem_append.mp hd with h1 | h1
        · exact hlt d h1
        · simp only [List.mem_singleton] at h1
          omega
      · rw [heq]
        simp
      · rw [List.foldl_append, hval]
        simp only [List.foldl_cons, List.foldl_nil]
        omega


theorem not_hex_digitChars (digits : List Nat) (h : ∀ d ∈ digits, d < 10) :
    (['0', 'x'].isPrefixOf (digits.map Nat.digitChar) ||
      ['0', 'X'].isPrefixOf (digits.map Nat.digitChar)) = false := by
  cases digits with
  | nil => rfl
  | cons d rest =>
    cases rest with
    | nil => simp [List.isPrefixOf]
    | cons d2 rest2 =>
      have h2 := digitChar_not_sign d2 (h d2 (by simp))
      simp only [List.map_cons, List.isPrefixOf, Bool.and_true, Bool.or_eq_false_iff,
        Bool.and_eq_false_iff, beq_eq_false_iff_ne, ne_eq]
      exact ⟨Or.inr (fun hx => h2.2.2.1 hx.symm), Or.inr (fun hx => h2.2.2.2 hx.symm)⟩

theorem log2Aux_le : ∀ (fuel a e : Nat), a < 2 ^ (e + 1) → log2Aux fuel a ≤ e := by
  intro fuel
  induction fuel with
  | zero => intro a e _; simp [log2Aux]
  | succ f ih =>
    intro a e h
    simp only [log2Aux]
    split_ifs with h2
    · omega
    · cases e with
      | zero => omega
      | succ e1 =>
        have h3 : a / 2 < 2 ^ (e1 + 1) := by
          rw [pow_succ] at h
          omega
        have h4 := ih (a / 2) e1 h3
        omega

theorem roundHalfEven_one (a : Nat) : roundHalfEven a 1 = a := by
  simp [roundHalfEven, Nat.mod_one]

theorem roundToDouble_of_lt (a : Nat) (h : a < 2 ^ 53) : roundToDouble a = a := by
  have h1 : log2 a - 52 = 0 := by
    have h2 := log2Aux_le a a 52 h
    unfold log2
    omega
  simp [roundToDouble, h1, roundHalfEven_one]

theorem roundToDouble_of_le (a : Nat) (h : a ≤ 2 ^ 53) : roundToDouble a = a := by
  rcases Nat.lt_or_eq_of_le h with h1 | h1
  · exact roundToDouble_of_lt a h1
  · rw [h1]
    decide

theorem toDouble_of_lt (negative : Bool) (a : Nat) (h : a < 2 ^ 53) :
    toDouble negative a = .int (if negative then -(a : Int) else (a : Int)) := by
  have h2 : log2 a < 1024 := by
    have h3 := log2Aux_le a a 52 h
    unfold log2
    omega
  simp only [toDouble, roundToDouble_of_lt a h, h2, if_true]

theorem roundHalfEven_fifty (x : Nat) :
    50 * roundHalfEven x 50 ≤ x + 25 ∧ x ≤ 50 * roundHalfEven x 50 + 25 ∧
      (x % 50 = 0 → 50 * roundHalfEven x 50 = x) := by
  unfold roundHalfEven
  split_ifs <;> omega

theorem quotientScale_fifty (a : Nat) (h : a < 2 ^ 53) :
    ∃ j : Nat, 4 ≤ j ∧ quotientScale a 50 = ((j + 1 : Nat) : Int) := by
  have h1 : log2 a ≤ 52 := by
    have h2 := log2Aux_le a a 52 h
    unfold log2
    omega
  have h50 : log2 50 = 5 := by decide
  unfold quotientScale
  simp only [h50]
  split_ifs
  · exact ⟨57 - log2 a, by omega, by omega⟩
  · exact ⟨56 - log2 a, by omega, by omega⟩

theorem round_core (n m K c : Int) (hK : 26 ≤ K)
    (hc1 : 50 * c - 25 ≤ n) (hc2 : n ≤ 50 * c + 24)
    (h1 : 50 * m ≤ n * K + 25) (h2 : n * K ≤ 50 * m + 25)
    (hexact : n = 50 * c - 25 → 2 * m + K = 2 * c * K) :
    (2 * m + K) / (2 * K) = c := by
  by_cases htie : n = 50 * c - 25
  · rw [hexact htie, show 2 * c * K = c * (2 * K) by ring]
    exact Int.mul_ediv_cancel c (by omega)
  · have hlo : (50 * c - 24) * K ≤ n * K :=
      mul_le_mul_of_nonneg_right (by omega) (by omega)
    have hhi : n * K ≤ (50 * c + 24) * K :=
      mul_le_mul_of_nonneg_right hc2 (by omega)
    apply le_antisymm
    · rw [← Int.lt_add_one_iff, Int.ediv_lt_iff_lt_mul (by omega)]
      linarith
    · rw [Int.le_ediv_iff_mul_le (by omega)]
      linarith

theorem signed_round_facts (n : Int) (K M : Nat)
    (h1 : 50 * M ≤ n.natAbs * K + 25) (h2 : n.natAbs * K ≤ 50 * M + 25) :
    50 * (if n < 0 then -(M : Int) else (M : Int)) ≤ n * (K : Int) + 25 ∧
      n * (K : Int) ≤ 50 * (if n < 0 then -(M : Int) else (M : Int)) + 25 := by
  have h1i : (50 : Int) * (M : Int) ≤ (n.natAbs : Int) * (K : Int) + 25 := by exact_mod_cast h1
  have h2i : (n.natAbs : Int) * (K : Int) ≤ 50 * (M : Int) + 25 := by exact_mod_cast h2
  by_cases hn : n < 0
  · have ha : (n.natAbs : Int) = -n := by omega
    rw [ha] at h1i h2i
    simp only [hn, if_true]
    constructor <;> linarith
  · have ha : (n.natAbs : Int) = n := by omega
    rw [ha] at h1i h2i
    simp only [hn, if_false]
    constructor <;> linarith

theorem signed_round_exact (n c : Int) (K2 M : Nat) (htie : n = 50 * c - 25)
    (h3 : (n.natAbs * (2 * K2)) % 50 = 0 → 50 * M = n.natAbs * (2 * K2)) :
    2 * (if n < 0 then -(M : Int) else (M : Int)) + ((2 * K2 : Nat) : Int) =
      2 * c * ((2 * K2 : Nat) : Int) := by
  have hdiv : (n.natAbs * (2 * K2)) % 50 = 0 := by
    have h4 : n.natAbs = 25 * (2 * c - 1).natAbs := by
      rw [htie, show 50 * c - 25 = 25 * (2 * c - 1) by ring, Int.natAbs_mul]
      rfl
    rw [h4, show 25 * (2 * c - 1).natAbs * (2 * K2) = 50 * ((2 * c - 1).natAbs * K2) by ring]
    exact Nat.mul_mod_right _ _
  have h5 : (50 : Int) * (M : Int) = (n.natAbs : Int) * (2 * (K2 : Int)) := by
    exact_mod_cast h3 hdiv
  push_cast
  by_cases hn : n < 0
  · have ha : (n.natAbs : Int) = -n := by omega
    rw [ha, htie] at h5
    simp only [hn, if_true]
    linarith
  · have ha : (n.natAbs : Int) = n := by omega
    rw [ha, htie] at h5
    simp only [hn, if_false]
    linarith

/-- Below `2 ^ 53` the two roundings of `Math.round(n / 50)` give the quotient rounded to
the nearest integer, a tie going up. -/
theorem absRoundDiv50_eq (n : Int) (h : n.natAbs < 2 ^ 53) :
    absRoundDiv50 n = ((n + 25) / 50).natAbs := by
  by_cases h0 : n = 0
  · rw [h0]
    rfl
  · obtain ⟨j, hj, hk⟩ := quotientScale_fifty n.natAbs h
    have hK : 2 ^ (j + 1) = 2 * 2 ^ j := by rw [pow_succ]; ring
    have hK32 : 16 ≤ 2 ^ j := by
      have := Nat.pow_le_pow_right (show 0 < 2 by decide) hj
      simpa using this
    have hfacts := roundHalfEven_fifty (n.natAbs * (2 * 2 ^ j))
    have hs := signed_round_facts n (2 * 2 ^ j) _ hfacts.1 hfacts.2.1
    have hcore := round_core n
      (if n < 0 then -((roundHalfEven (n.natAbs * (2 * 2 ^ j)) 50 : Nat) : Int)
        else ((roundHalfEven (n.natAbs * (2 * 2 ^ j)) 50 : Nat) : Int))
      ((2 * 2 ^ j : Nat) : Int) ((n + 25) / 50)
      (by have : (16 : Int) ≤ ((2 ^ j : Nat) : Int) := by exact_mod_cast hK32
          push_cast at this ⊢
          omega)
      (by omega) (by omega) hs.1 hs.2
      (fun htie => signed_round_exact n _ (2 ^ j) _ htie hfacts.2.2)
    simp only [absRoundDiv50, h0, if_false, divDouble, hk, Int.toNat_ofNat, hK]
    have hneg : (-((j + 1 : Nat) : Int)).toNat = 0 := by omega
    simp only [hneg, pow_zero, mul_one]
    rw [hcore]

theorem clickLoop_recorder (command : String) (c : Nat) (hc : c ≤ 2 ^ 53) :
    ∀ (fuel i : Nat) (log : List (List String)), i ≤ c → c - i < fuel →
      clickLoop recorder command (some c) fuel i log =
        .returned (log ++ List.replicate (c - i) [command]) := by
  intro fuel
  induction fuel with
  | zero => intro i log _ h; omega
  | succ f ih =>
    intro i log hi hf
    by_cases hci : i < c
    · have hstep : roundToDouble (i + 1) = i + 1 := roundToDouble_of_le (i + 1) (by omega)
      have hrec := ih (i + 1) (log ++ [[command]]) (by omega) (by omega)
      have hsub : c - i = (c - (i + 1)) + 1 := by omega
      simp only [clickLoop, lessThan, hci, decide_True, if_true, recorder, hstep]
      simp only [recorder] at hrec
      rw [hrec, hsub, List.replicate_succ]
      simp
    · have h0 : c - i = 0 := by omega
      simp [clickLoop, lessThan, hci, h0]

/-- The function `parseInt` reads back the digits of a decimal numeral below `2 ^ 53`. -/
theorem parseInt_digitChars (digits : List Nat) (hne : digits ≠ [])
    (h : ∀ d ∈ digits, d < 10)
    (hlt : digits.foldl (fun acc d => acc * 10 + d) 0 < 2 ^ 53) :
    parseInt (some (String.mk (digits.map Nat.digitChar))) =
      .int ((digits.foldl (fun acc d => acc * 10 + d) 0 : Nat) : Int) ∧
    parseInt (some (String.mk ('-' :: digits.map Nat.digitChar))) =
      .int (-((digits.foldl (fun acc d => acc * 10 + d) 0 : Nat) : Int)) := by
  have hhex := not_hex_digitChars digits h
  have htake := takeDigits_digitChars digits h
  have hpos := toDouble_of_lt false _ hlt
  have hneg := toDouble_of_lt true _ hlt
  obtain ⟨d, rest, rfl⟩ : ∃ d rest, digits = d :: rest := by
    cases digits with
    | nil => exact absurd rfl hne
    | cons d rest => exact ⟨d, rest, rfl⟩
  have hd := h d (by simp)
  have hspace := digitChar_not_space d hd
  have hsign := digitChar_not_sign d hd
  simp only [List.map_cons] at hhex htake
  constructor
  · simpa [parseInt, hspace, hsign.1, hsign.2.1, hhex, htake] using hpos
  · have hminus : isStrWhiteSpaceChar '-' = false := by rfl
    simpa [parseInt, hminus, hhex, htake] using hneg

/-- Below `2 ^ 53` in absolute value, `parseInt` reads the decimal numeral of an integer as
that integer. -/
theorem parseInt_toString (n : Int) (hn : n.natAbs < 2 ^ 53) :
    parseInt (some (toString n)) = .int n := by
  cases n with
  | ofNat m =>
    obtain ⟨digits, hne, hlt, heq, hval⟩ := toDigitsCore_digits (m + 1) m [] (by omega)
    have hstr : toString (Int.ofNat m) = String.mk (digits.map Nat.digitChar) := by
      show Nat.repr m = _
      simp only [Nat.repr, Nat.toDigits, heq, List.append_nil, List.asString]
    have hm : digits.foldl (fun acc d => acc * 10 + d) 0 < 2 ^ 53 := by
      rw [hval]
      exact hn
    rw [hstr, (parseInt_digitChars digits hne hlt hm).1, hval]
    rfl
  | negSucc m =>
    obtain ⟨digits, hne, hlt, heq, hval⟩ :=
      toDigitsCore_digits (m + 1 + 1) (m + 1) [] (by omega)
    have hstr : toString (Int.negSucc m) = String.mk ('-' :: digits.map Nat.digitChar) := by
      show "-" ++ Nat.repr (m + 1) = _
      simp only [Nat.repr, Nat.toDigits, heq, List.append_nil, List.asString]
      rfl
    have hm : digits.foldl (fun acc d => acc * 10 + d) 0 < 2 ^ 53 := by
      rw [hval]
      exact hn
    rw [hstr, (parseInt_digitChars digits hne hlt hm).2, hval]
    rfl

theorem roundDiv50_eq_floor (n : Int) : (n + 25) / 50 = ⌊(n : ℚ) / 50 + 1 / 2⌋ := by
  symm
  rw [Int.floor_eq_iff]
  have h1 : 0 ≤ (n + 25) % 50 := Int.emod_nonneg _ (by decide)
  have h2 : (n + 25) % 50 < 50 := Int.emod_lt_of_pos _ (by decide)
  have h3 := Int.ediv_add_emod (n + 25) 50
  have hlo : 50 * ((n + 25) / 50) ≤ n + 25 := by omega
  have hhi : n + 25 < 50 * ((n + 25) / 50) + 50 := by omega
  have hlo' : (50 : ℚ) * (((n + 25) / 50 : Int) : ℚ) ≤ (n : ℚ) + 25 := by exact_mod_cast hlo
  have hhi' : (n : ℚ) + 25 < (50 : ℚ) * (((n + 25) / 50 : Int) : ℚ) + 50 := by
    exact_mod_cast hhi
  constructor <;> linarith

theorem natAbs_lt_of_abs_lt (n : Int) (hn : |n| < 2 ^ 53) : n.natAbs < 2 ^ 53 := by
  rw [Int.abs_eq_natAbs] at hn
  exact_mod_cast hn

/-- C21, amended: for every integer `n` with `|n| < 2 ^ 53`, `parseInt` reads the decimal
numeral of `n` as `n`, and `scroll` called with an amount that `parseInt` reads as `n`
returns after exactly `|⌊n / 50 + 1 / 2⌋|` calls of `xte` (the quotient rounded to the
nearest integer, a tie going up), each with the single command `mouseclick 5` when `n > 0`
and `mouseclick 4` otherwise; an amount that `parseInt` does not read as a number makes no
call. -/
theorem scroll_clicks (n : Int) (hn : |n| < 2 ^ 53) (log : List (List String)) :
    parseInt (some (toString n)) = .int n ∧
    (∀ amount, parseInt amount = .int n →
      ∀ fuel, (⌊(n : ℚ) / 50 + 1 / 2⌋).natAbs < fuel →
        scroll recorder amount fuel log =
          .returned (log ++ List.replicate (⌊(n : ℚ) / 50 + 1 / 2⌋).natAbs
            [if 0 < n then "mouseclick 5" else "mouseclick 4"])) ∧
    (∀ amount, parseInt amount = .nan →
      ∀ fuel, scroll recorder amount fuel log = .returned log) := by
  have hnat := natAbs_lt_of_abs_lt n hn
  refine ⟨parseInt_toString n hnat, ?_, ?_⟩
  · intro amount h fuel hfuel
    have hclicks : absRoundDiv50 n = (⌊(n : ℚ) / 50 + 1 / 2⌋).natAbs := by
      rw [absRoundDiv50_eq n hnat, roundDiv50_eq_floor]
    have hbound : absRoundDiv50 n ≤ 2 ^ 53 := by
      rw [absRoundDiv50_eq n hnat]
      omega
    have hloop := fun command =>
      clickLoop_recorder command (absRoundDiv50 n) hbound fuel 0 log (Nat.zero_le _)
        (by rw [hclicks]; exact hfuel)
    simp only [scroll, h]
    rw [hloop, Nat.sub_zero, hclicks]
    by_cases hpos : 0 < n
    · simp only [gt_iff_lt, hpos, if_true]
      rfl
    · simp only [gt_iff_lt, hpos, if_false]
      rfl
  · intro amount h fuel
    simp only [scroll, h]

/-- When the number of clicks is above `2 ^ 53` or infinite, the loop of `scroll` never
ends: the counter reaches `2 ^ 53`, where `i++` leaves it unchanged. -/
theorem clickLoop_stalls (command : String) (clicks : Option Nat)
    (hc : ∀ c, clicks = some c → 2 ^ 53 < c) :
    ∀ (fuel i : Nat) (log : List (List String)), i ≤ 2 ^ 53 →
      clickLoop recorder command clicks fuel i log = .outOfFuel := by
  intro fuel
  induction fuel with
  | zero => intro i log _; rfl
  | succ f ih =>
    intro i log hi
    have hguard : lessThan i clicks = true := by
      cases clicks with
      | none => rfl
      | some c =>
        have := hc c rfl
        simp only [lessThan, decide_eq_true_eq]
        omega
    have hstep : roundToDouble (i + 1) ≤ 2 ^ 53 := by
      rcases Nat.lt_or_eq_of_le hi with h1 | h1
      · rw [roundToDouble_of_le (i + 1) (by omega)]
        omega
      · rw [h1]
        decide
    simp only [clickLoop, hguard, if_true, recorder]
    exact ih _ _ hstep

/-- An amount for which `scroll` never returns: `1000000000000000000000` asks for
`2 * 10 ^ 19` clicks, more than the loop counter can count. -/
theorem scroll_never_returns (fuel : Nat) :
    scroll recorder (some "1000000000000000000000") fuel [] = .outOfFuel := by
  have hparse : parseInt (some "1000000000000000000000") = .int 1000000000000000000000 := by
    decide
  have hclicks : absRoundDiv50 1000000000000000000000 = 20000000000000000000 := by decide
  simp only [scroll, hparse]
  rw [hclicks]
  exact clickLoop_stalls _ _ (fun c hc => by cases hc; decide) fuel 0 [] (Nat.zero_le _)

/-- C21 refuted: `9007199254741025` is an integer whose decimal numeral `parseInt` reads as
the double `9007199254741024`; the quotient by 50 rounds to the double
`180143985094820.46875`, so `scroll` returns after `180143985094820` clicks, and
`|⌊n / 50 + 1 / 2⌋|` is `180143985094821`. -/
theorem scroll_clicks_counterexample :
    toString (9007199254741025 : Int) = "9007199254741025" ∧
    parseInt (some "9007199254741025") = .int 9007199254741024 ∧
    divDouble 9007199254741024 50 = (5764607523034255, 32) ∧
    scroll recorder (some "9007199254741025") 180143985094821 [] =
      .returned (List.replicate 180143985094820 ["mouseclick 5"]) ∧
    (⌊((9007199254741025 : Int) : ℚ) / 50 + 1 / 2⌋).natAbs = 180143985094821 := by
  have hparse : parseInt (some "9007199254741025") = .int 9007199254741024 := by decide
  have hclicks : absRoundDiv50 9007199254741024 = 180143985094820 := by decide
  have hloop := clickLoop_recorder "mouseclick 5" 180143985094820 (by decide)
    180143985094821 0 [] (Nat.zero_le _) (by decide)
  refine ⟨by decide, hparse, by decide, ?_, ?_⟩
  · simp only [scroll, hparse]
    rw [hclicks]
    rw [Nat.sub_zero, List.nil_append] at hloop
    exact hloop
  · rw [← roundDiv50_eq_floor]
    decide

/-- C21 on concrete amounts: 120 gives two clicks down, -75 one click up, 25 one click
down, -25 and 0 none, and `abc` or a missing amount none. -/
theorem scroll_clicks_witness :
    scroll recorder (some "120") 3 [] = .returned [["mouseclick 5"], ["mouseclick 5"]] ∧
    scroll recorder (some "-75") 3 [] = .returned [["mouseclick 4"]] ∧
    scroll recorder (some "25") 3 [] = .returned [["mouseclick 5"]] ∧
    scroll recorder (some "-25") 3 [] = .returned [] ∧
    scroll recorder (some "0") 3 [] = .returned [] ∧
    scroll recorder (some "abc") 3 [] = .returned [] ∧
    scroll recorder none 3 [] = .returned [] ∧
    |(120 : Int)| < 2 ^ 53 ∧
    parseInt (some (toString (120 : Int))) = .int 120 ∧
    scroll recorder (some (toString (120 : Int))) 3 [] =
      .returned ([] ++ List.replicate (⌊((120 : Int) : ℚ) / 50 + 1 / 2⌋).natAbs
        [if 0 < (120 : Int) then "mouseclick 5" else "mouseclick 4"]) :=
  ⟨rfl, rfl, rfl, rfl, rfl, rfl, rfl, by decide,
    (scroll_clicks 120 (by decide) []).1,
    (scroll_clicks 120 (by decide) []).2.1 (some (toString (120 : Int)))
      (scroll_clicks 120 (by decide) []).1 3
      (by rw [← roundDiv50_eq_floor]; decide)⟩

end DesktopControl
